import Mathlib

/-!
# DMA2D compositor (`dma2d_gdc.c`) and the VG-2864 display driver

A shallow embedding of `core/embed/trezorhal/stm32f4/dma2d_gdc.c` and of the
backlight / orientation entry points of
`core/embed/trezorhal/stm32f4/xdisplay/vg-2864/vg-2864ksweg01.c`.

* Memory is one flat, byte-addressed, little-endian store (`brg_endian.h`), so
  buffers may alias exactly as the C pointers may.
* The C functions run on the CPU: they draw boundary columns, write engine
  registers and call the HAL.  HAL calls are recorded in `hal_log`, CPU pixel
  stores in `cpu_log` (both are ghost fields used only to observe the code).
* A started transfer is asynchronous: it stays `pending` until the next
  `dma2d_wait`, which is where its effect on memory becomes visible.
-/

namespace Dma2dGdc

/-! ## Memory -/

/-- Byte-addressed memory; only the low eight bits of a cell are meaningful. -/
abbrev Mem := Nat → Nat

/-- Read of a `uint8_t`. -/
def load8 (m : Mem) (a : Nat) : Nat := m a % 256

/-- Little-endian read of a `uint16_t`. -/
def load16 (m : Mem) (a : Nat) : Nat := m a % 256 + 256 * (m (a + 1) % 256)

/-- Little-endian write of a `uint16_t` (the value is truncated to 16 bits). -/
def store16 (m : Mem) (a v : Nat) : Mem :=
  fun x => if x = a then v % 256 else if x = a + 1 then v / 256 % 256 else m x

/-- Conversion of a C integer to `uint32_t`. -/
def toU32 (x : Int) : Nat := (x % 4294967296).toNat

/-! ## Descriptor, engine registers, module state -/

/-- Modelled from the spec: the descriptor type `dma2d_params_t` is declared in
`dma2d.h`, which is not among the sources.  Following the data model, buffer
bases are addresses, x-offsets are pixel indices and strides are non-negative
byte counts (naturals), while `width` and `height` are signed integers (the
code tests `width > 0` and counts `height` down in an `int`). -/
structure dma2d_params_t where
  dst_row : Nat
  dst_x : Nat
  dst_stride : Nat
  width : Int
  height : Int
  srca_row : Nat
  srca_x : Nat
  srca_stride : Nat
  srca_fg : Nat
  srca_bg : Nat
  srcb_row : Nat
  srcb_x : Nat
  srcb_stride : Nat
  deriving DecidableEq, Repr

/-- The values of `Init.Mode` the code selects. -/
inductive dma2d_mode
  | DMA2D_M2M_PFC
  | DMA2D_M2M_BLEND
  | DMA2D_R2M
  deriving DecidableEq, Repr

/-- The value of `Init.ColorMode`: every entry point selects
`DMA2D_OUTPUT_RGB565` before it initialises the engine. -/
inductive dma2d_output
  | DMA2D_OUTPUT_RGB565
  deriving DecidableEq, Repr

/-- The values of `LayerCfg[i].InputColorMode` the code selects. -/
inductive dma2d_input
  | DMA2D_INPUT_RGB565
  | DMA2D_INPUT_L4
  | DMA2D_INPUT_A4
  deriving DecidableEq, Repr

open dma2d_mode dma2d_output dma2d_input

/-- The fields of `dma2d_handle.Init` written by the code. -/
structure DMA2D_InitTypeDef where
  Mode : dma2d_mode
  ColorMode : dma2d_output
  OutputOffset : Nat
  deriving DecidableEq, Repr

/-- The fields of `dma2d_handle.LayerCfg[i]` written by the code. -/
structure DMA2D_LayerCfgTypeDef where
  InputOffset : Nat
  InputColorMode : dma2d_input
  AlphaMode : Nat
  InputAlpha : Nat
  deriving DecidableEq, Repr

/-- The static `dma2d_handle`: `Init`, `LayerCfg[0]` and `LayerCfg[1]`. -/
structure DMA2D_HandleTypeDef where
  Init : DMA2D_InitTypeDef
  LayerCfg0 : DMA2D_LayerCfgTypeDef
  LayerCfg1 : DMA2D_LayerCfgTypeDef
  deriving DecidableEq, Repr

/-- One HAL call made by the compositor, with the values it was given. -/
inductive hal_call
  | HAL_DMA2D_Init (init : DMA2D_InitTypeDef)
  | HAL_DMA2D_ConfigLayer (idx : Nat) (cfg : DMA2D_LayerCfgTypeDef)
  | HAL_DMA2D_ConfigCLUT (layer : Nat)
  | HAL_DMA2D_Start (pdata dst width height : Nat)
  | HAL_DMA2D_BlendingStart (src1 src2 dst width height : Nat)
  deriving DecidableEq, Repr

/-- A transfer handed to the engine: the handle registers at the moment of the
start call and the arguments of `HAL_DMA2D_Start` / `HAL_DMA2D_BlendingStart`
(`src2` is only meaningful when blending). -/
structure dma2d_transfer where
  handle : DMA2D_HandleTypeDef
  src1 : Nat
  src2 : Nat
  dst : Nat
  width : Nat
  height : Nat
  deriving DecidableEq, Repr

/-- One entry of the static `cache[LAYER_COUNT]` of `dma2d_config_clut`. -/
structure clut_cache_t where
  c_fg : Nat
  c_bg : Nat
  deriving DecidableEq, Repr

/-- Everything the compositor reads or writes: memory, the static handle, the
engine's two lookup tables, the static lookup-table cache, the engine's
busy / pending status, and the two ghost logs. -/
structure dma2d_state where
  mem : Mem
  dma2d_handle : DMA2D_HandleTypeDef
  FGCLUT : Nat → Nat
  BGCLUT : Nat → Nat
  cache : Nat → clut_cache_t
  busy : Nat
  pending : Option dma2d_transfer
  hal_log : List hal_call
  cpu_log : List (Nat × Nat)

/-- Modelled from the spec: the collaborators the compositor consumes but that
are not among the sources.  The colour primitives of `gdc_color.h` are taken as
parameters (the spec only names them); so are the pixel arithmetic of the
raster engine (`engine_out565`: a 32-bit colour word rendered in the RGB565
output format, `engine_nibble`: the 4-bit sample the engine takes from a source
byte for the sample at position 0 or 1 within the byte, `engine_blend`:
constant colour, 4-bit coverage and background pixel blended in hardware,
`engine_other`: the pixel of row `r`, column `k` in a configuration the code
never programs) and the number of polls a transfer keeps the engine busy. -/
structure gdc_env where
  gdc_color_to_color32 : Nat → Nat
  gdc_color16_to_color : Nat → Nat
  gdc_color16_blend_a4 : Nat → Nat → Nat → Nat
  gdc_color32_blend_a4 : Nat → Nat → Nat → Nat
  gdc_color16_gradient_a4 : Nat → Nat → Nat → Nat
  engine_out565 : Nat → Nat
  engine_nibble : Nat → Nat → Nat
  engine_blend : Nat → Nat → Nat → Nat
  engine_other : dma2d_transfer → Mem → Nat → Nat → Nat
  engine_polls : dma2d_transfer → Nat

def LAYER_COUNT : Nat := 2

def GRADIENT_STEPS : Nat := 16

/-! ## The raster engine -/

/-- Modelled from the spec: one 4-bit sample of a packed mono4 buffer as the
engine fetches it.  The buffer holds two samples per byte, so sample `i`
counted from the byte at `base` lies in byte `base + i / 2`, at position
`i % 2` within that byte; which nibble the engine takes for a position is the
engine's own matter (`engine_nibble`). -/
def mono4_fetch (E : gdc_env) (m : Mem) (base i : Nat) : Nat :=
  E.engine_nibble (load8 m (base + i / 2)) (i % 2)

/-- Modelled from the spec: the pixel the engine produces for row `r`, column
`k` of a transfer.  Register-to-memory: the colour word in output format.
Format-converting copy of a 16-bit source: the source pixel itself (straight
copy); of a 4-bit indexed source: the lookup-table entry in output format.
Blend: coverage sample of layer 1 and 16-bit background pixel of layer 0.  An
input line is `width + InputOffset` samples long. -/
def dma2d_engine_pixel (E : gdc_env) (clut : Nat → Nat) (t : dma2d_transfer)
    (m : Mem) (r k : Nat) : Nat :=
  match t.handle.Init.Mode, t.handle.LayerCfg1.InputColorMode with
  | DMA2D_R2M, _ => E.engine_out565 t.src1
  | DMA2D_M2M_PFC, DMA2D_INPUT_RGB565 =>
      load16 m (t.src1 + 2 * (r * (t.width + t.handle.LayerCfg1.InputOffset) + k))
  | DMA2D_M2M_PFC, DMA2D_INPUT_L4 =>
      E.engine_out565
        (clut (mono4_fetch E m t.src1 (r * (t.width + t.handle.LayerCfg1.InputOffset) + k)))
  | DMA2D_M2M_BLEND, DMA2D_INPUT_A4 =>
      E.engine_blend t.handle.LayerCfg1.InputAlpha
        (mono4_fetch E m t.src1 (r * (t.width + t.handle.LayerCfg1.InputOffset) + k))
        (load16 m (t.src2 + 2 * (r * (t.width + t.handle.LayerCfg0.InputOffset) + k)))
  | _, _ => E.engine_other t m r k

/-- Byte address of the destination pixel of row `r`, column `k` of a transfer:
an output line is `width + OutputOffset` pixels of two bytes. -/
def dma2d_engine_dst (t : dma2d_transfer) (r k : Nat) : Nat :=
  t.dst + 2 * (r * (t.width + t.handle.Init.OutputOffset) + k)

/-- The pixels `(row, column)` of a transfer in the order the engine streams
them: row by row, left to right. -/
def dma2d_engine_cells (t : dma2d_transfer) : List (Nat × Nat) :=
  (List.range t.height).flatMap (fun r => (List.range t.width).map (fun k => (r, k)))

/-- Modelled from the spec: a whole transfer.  The engine streams the
`width x height` rectangle and stores each pixel it produces into the 16-bit
destination, reading its inputs from memory as it goes. -/
def dma2d_engine_run (E : gdc_env) (clut : Nat → Nat) (t : dma2d_transfer) (m : Mem) : Mem :=
  (dma2d_engine_cells t).foldl
    (fun m c => store16 m (dma2d_engine_dst t c.1 c.2) (dma2d_engine_pixel E clut t m c.1 c.2)) m

/-- The engine has finished: a pending transfer has taken effect on memory. -/
def dma2d_complete (E : gdc_env) (s : dma2d_state) : dma2d_state :=
  { s with
    busy := 0
    pending := none
    mem := match s.pending with
      | some t => dma2d_engine_run E s.FGCLUT t s.mem
      | none => s.mem }

/-- Modelled from the spec: `HAL_DMA2D_PollForTransfer(&dma2d_handle, 10)`.  A
poll that finds the engine busy times out (`false`) and leaves it one poll
nearer to idle; a poll that finds it idle reports `HAL_OK` (`true`). -/
def HAL_DMA2D_PollForTransfer (E : gdc_env) (s : dma2d_state) : Bool × dma2d_state :=
  match s.busy with
  | 0 => (true, dma2d_complete E s)
  | n + 1 => (false, { s with busy := n })

/-- The loop of `dma2d_wait`, `while (HAL_DMA2D_PollForTransfer(..) != HAL_OK);`,
with a bound on the number of polls. -/
def dma2d_wait_fuel (E : gdc_env) : Nat → dma2d_state → Option dma2d_state
  | 0, _ => none
  | fuel + 1, s =>
    if (HAL_DMA2D_PollForTransfer E s).1 then some (HAL_DMA2D_PollForTransfer E s).2
    else dma2d_wait_fuel E fuel (HAL_DMA2D_PollForTransfer E s).2

/-- A run of `dma2d_wait`: `busy + 1` polls always suffice (`dma2d_wait_fuel_busy`). -/
def dma2d_wait (E : gdc_env) (s : dma2d_state) : dma2d_state :=
  (dma2d_wait_fuel E (s.busy + 1) s).getD (dma2d_complete E s)

/-- Modelled from the spec: `HAL_DMA2D_Init`, recorded with the `Init` fields
it commits to the engine. -/
def HAL_DMA2D_Init (s : dma2d_state) : dma2d_state :=
  { s with hal_log := s.hal_log ++ [hal_call.HAL_DMA2D_Init s.dma2d_handle.Init] }

/-- Modelled from the spec: `HAL_DMA2D_ConfigLayer(&dma2d_handle, idx)`,
recorded with the layer configuration it commits. -/
def HAL_DMA2D_ConfigLayer (s : dma2d_state) (idx : Nat) : dma2d_state :=
  { s with hal_log := s.hal_log ++ [hal_call.HAL_DMA2D_ConfigLayer idx
      (if idx = 0 then s.dma2d_handle.LayerCfg0 else s.dma2d_handle.LayerCfg1)] }

/-- Modelled from the spec: `HAL_DMA2D_ConfigCLUT(&dma2d_handle, clut, layer)`,
the hardware lookup-table programming call. -/
def HAL_DMA2D_ConfigCLUT (s : dma2d_state) (layer : Nat) : dma2d_state :=
  { s with hal_log := s.hal_log ++ [hal_call.HAL_DMA2D_ConfigCLUT layer] }

/-- Modelled from the spec: `HAL_DMA2D_Start`.  All arguments are `uint32_t`.
The transfer starts and the call returns at once. -/
def HAL_DMA2D_Start (E : gdc_env) (s : dma2d_state) (pdata dst width height : Nat) :
    dma2d_state :=
  { s with
    hal_log := s.hal_log ++ [hal_call.HAL_DMA2D_Start pdata dst width height]
    pending := some ⟨s.dma2d_handle, pdata, 0, dst, width, height⟩
    busy := E.engine_polls ⟨s.dma2d_handle, pdata, 0, dst, width, height⟩ }

/-- Modelled from the spec: `HAL_DMA2D_BlendingStart`, as `HAL_DMA2D_Start`
with a second source. -/
def HAL_DMA2D_BlendingStart (E : gdc_env) (s : dma2d_state)
    (src1 src2 dst width height : Nat) : dma2d_state :=
  { s with
    hal_log := s.hal_log ++ [hal_call.HAL_DMA2D_BlendingStart src1 src2 dst width height]
    pending := some ⟨s.dma2d_handle, src1, src2, dst, width, height⟩
    busy := E.engine_polls ⟨s.dma2d_handle, src1, src2, dst, width, height⟩ }

/-- A 16-bit store made by the CPU (`dst_ptr[0] = ...`), recorded in `cpu_log`. -/
def cpu_store16 (s : dma2d_state) (a v : Nat) : dma2d_state :=
  { s with mem := store16 s.mem a v, cpu_log := s.cpu_log ++ [(a, v)] }

/-! ## `dma2d_gdc.c` -/

/-- `dma2d_rgb565_fill`. -/
def dma2d_rgb565_fill (E : gdc_env) (s : dma2d_state) (dp : dma2d_params_t) :
    Bool × dma2d_params_t × dma2d_state :=
  let s := dma2d_wait E s
  let s := { s with dma2d_handle := { s.dma2d_handle with
    Init := ⟨DMA2D_R2M, DMA2D_OUTPUT_RGB565, toU32 ((dp.dst_stride / 2 : Nat) - dp.width)⟩ } }
  let s := HAL_DMA2D_Init s
  let s := HAL_DMA2D_Start E s (E.gdc_color_to_color32 dp.srca_fg % 4294967296)
    ((dp.dst_row + dp.dst_x * 2) % 4294967296) (toU32 dp.width) (toU32 dp.height)
  (true, dp, s)

/-- The loop `for (step = 0; step < GRADIENT_STEPS; step++) clut[step] = ...`
of `dma2d_config_clut`, over the steps still to do. -/
def dma2d_config_clut_loop (E : gdc_env) (fg bg : Nat) : List Nat → (Nat → Nat) → (Nat → Nat)
  | [], clut => clut
  | step :: rest, clut =>
    dma2d_config_clut_loop E fg bg rest
      (Function.update clut step (E.gdc_color32_blend_a4 fg bg step % 4294967296))

/-- `dma2d_config_clut`: the lookup table of `layer` is `FGCLUT` when `layer` is
non-zero and `BGCLUT` otherwise. -/
def dma2d_config_clut (E : gdc_env) (s : dma2d_state) (layer fg bg : Nat) : dma2d_state :=
  if layer ≥ LAYER_COUNT then s
  else if fg ≠ (s.cache layer).c_fg ∨ bg ≠ (s.cache layer).c_bg then
    let s := { s with cache := Function.update s.cache layer ⟨fg, bg⟩ }
    let s := if layer ≠ 0
      then { s with FGCLUT := dma2d_config_clut_loop E fg bg (List.range GRADIENT_STEPS) s.FGCLUT }
      else { s with BGCLUT := dma2d_config_clut_loop E fg bg (List.range GRADIENT_STEPS) s.BGCLUT }
    HAL_DMA2D_ConfigCLUT s layer
  else s

/-- The loop `while (height-- > 0)` of `dma2d_rgb565_copy_mono4_first_col`;
`dst_ptr` and `srca_ptr` are byte addresses. -/
def dma2d_rgb565_copy_mono4_first_col_loop (dp : dma2d_params_t) (gradient : Nat → Nat) :
    Nat → Nat → Nat → dma2d_state → dma2d_state
  | 0, _, _, s => s
  | height + 1, dst_ptr, srca_ptr, s =>
    dma2d_rgb565_copy_mono4_first_col_loop dp gradient height
      (dst_ptr + 2 * (dp.dst_stride / 2)) (srca_ptr + dp.srca_stride / 1)
      (cpu_store16 s dst_ptr (gradient (load8 s.mem srca_ptr / 16)))

/-- `dma2d_rgb565_copy_mono4_first_col`. -/
def dma2d_rgb565_copy_mono4_first_col (dp : dma2d_params_t) (gradient : Nat → Nat)
    (s : dma2d_state) : dma2d_state :=
  dma2d_rgb565_copy_mono4_first_col_loop dp gradient dp.height.toNat
    (dp.dst_row + 2 * dp.dst_x) (dp.srca_row + dp.srca_x / 2) s

/-- The loop of `dma2d_rgb565_copy_mono4_last_col` (its `srcb_ptr` is advanced
but never dereferenced, so it is left out). -/
def dma2d_rgb565_copy_mono4_last_col_loop (dp : dma2d_params_t) (gradient : Nat → Nat) :
    Nat → Nat → Nat → dma2d_state → dma2d_state
  | 0, _, _, s => s
  | height + 1, dst_ptr, srca_ptr, s =>
    dma2d_rgb565_copy_mono4_last_col_loop dp gradient height
      (dst_ptr + 2 * (dp.dst_stride / 2)) (srca_ptr + dp.srca_stride / 1)
      (cpu_store16 s dst_ptr (gradient (load8 s.mem srca_ptr % 16)))

/-- `dma2d_rgb565_copy_mono4_last_col`. -/
def dma2d_rgb565_copy_mono4_last_col (dp : dma2d_params_t) (gradient : Nat → Nat)
    (s : dma2d_state) : dma2d_state :=
  dma2d_rgb565_copy_mono4_last_col_loop dp gradient dp.height.toNat
    (dp.dst_row + 2 * ((dp.dst_x : Int) + dp.width - 1).toNat)
    (dp.srca_row + (((dp.srca_x : Int) + dp.width - 1) / 2).toNat) s

/-- The local variables of `dma2d_rgb565_copy_mono4` together with the
descriptor and the module state. -/
structure copy_mono4_ctx where
  srca_gradient : Option (Nat → Nat)
  dp : dma2d_params_t
  s : dma2d_state

/-- `dma2d_rgb565_copy_mono4`. -/
def dma2d_rgb565_copy_mono4 (E : gdc_env) (s : dma2d_state) (dp : dma2d_params_t) :
    Bool × dma2d_params_t × dma2d_state :=
  let c : copy_mono4_ctx := ⟨none, dp, dma2d_wait E s⟩
  let c : copy_mono4_ctx :=
    if c.dp.srca_x % 2 = 1 then
      let g := E.gdc_color16_gradient_a4 c.dp.srca_fg c.dp.srca_bg
      ⟨some g,
       { c.dp with dst_x := c.dp.dst_x + 1, srca_x := c.dp.srca_x + 1, width := c.dp.width - 1 },
       dma2d_rgb565_copy_mono4_first_col c.dp g c.s⟩
    else c
  let c : copy_mono4_ctx :=
    if c.dp.width > 0 ∧ c.dp.width % 2 = 1 then
      let g := c.srca_gradient.getD (E.gdc_color16_gradient_a4 c.dp.srca_fg c.dp.srca_bg)
      ⟨some g, { c.dp with width := c.dp.width - 1 },
       dma2d_rgb565_copy_mono4_last_col c.dp g c.s⟩
    else c
  let dp := c.dp
  let s := c.s
  let s := { s with dma2d_handle := { s.dma2d_handle with
    Init := ⟨DMA2D_M2M_PFC, DMA2D_OUTPUT_RGB565, toU32 ((dp.dst_stride / 2 : Nat) - dp.width)⟩ } }
  let s := HAL_DMA2D_Init s
  let s := { s with dma2d_handle := { s.dma2d_handle with
    LayerCfg1 := ⟨toU32 ((dp.srca_stride * 2 : Nat) - dp.width), DMA2D_INPUT_L4, 0, 0⟩ } }
  let s := HAL_DMA2D_ConfigLayer s 1
  let s := dma2d_config_clut E s 1 dp.srca_fg dp.srca_bg
  let s := HAL_DMA2D_Start E s ((dp.srca_row + dp.srca_x / 2) % 4294967296)
    ((dp.dst_row + dp.dst_x * 2) % 4294967296) (toU32 dp.width) (toU32 dp.height)
  (true, dp, s)

/-- `dma2d_rgb565_copy_rgb565`. -/
def dma2d_rgb565_copy_rgb565 (E : gdc_env) (s : dma2d_state) (dp : dma2d_params_t) :
    Bool × dma2d_params_t × dma2d_state :=
  let s := dma2d_wait E s
  let s := { s with dma2d_handle := { s.dma2d_handle with
    Init := ⟨DMA2D_M2M_PFC, DMA2D_OUTPUT_RGB565, toU32 ((dp.dst_stride / 2 : Nat) - dp.width)⟩ } }
  let s := HAL_DMA2D_Init s
  let s := { s with dma2d_handle := { s.dma2d_handle with
    LayerCfg1 := ⟨toU32 ((dp.srca_stride / 2 : Nat) - dp.width), DMA2D_INPUT_RGB565, 0, 0⟩ } }
  let s := HAL_DMA2D_ConfigLayer s 1
  let s := HAL_DMA2D_Start E s ((dp.srca_row + dp.srca_x * 2) % 4294967296)
    ((dp.dst_row + dp.dst_x * 2) % 4294967296) (toU32 dp.width) (toU32 dp.height)
  (true, dp, s)

/-- `dma2d_rgb565_blend_mono4_mono4`. -/
def dma2d_rgb565_blend_mono4_mono4 (E : gdc_env) (s : dma2d_state) (params : dma2d_params_t) :
    Bool × dma2d_params_t × dma2d_state :=
  let s := dma2d_wait E s
  (true, params, s)

/-- The loop of `dma2d_rgb565_blend_mono4_rgb565_first_col`. -/
def dma2d_rgb565_blend_mono4_rgb565_first_col_loop (E : gdc_env) (dp : dma2d_params_t) :
    Nat → Nat → Nat → Nat → dma2d_state → dma2d_state
  | 0, _, _, _, s => s
  | height + 1, dst_ptr, srca_ptr, srcb_ptr, s =>
    dma2d_rgb565_blend_mono4_rgb565_first_col_loop E dp height
      (dst_ptr + 2 * (dp.dst_stride / 2)) (srca_ptr + dp.srca_stride / 1)
      (srcb_ptr + 2 * (dp.srcb_stride / 2))
      (cpu_store16 s dst_ptr
        (E.gdc_color16_blend_a4 dp.srca_fg (E.gdc_color16_to_color (load16 s.mem srcb_ptr))
          (load8 s.mem srca_ptr / 16)))

/-- `dma2d_rgb565_blend_mono4_rgb565_first_col`. -/
def dma2d_rgb565_blend_mono4_rgb565_first_col (E : gdc_env) (dp : dma2d_params_t)
    (s : dma2d_state) : dma2d_state :=
  dma2d_rgb565_blend_mono4_rgb565_first_col_loop E dp dp.height.toNat
    (dp.dst_row + 2 * dp.dst_x) (dp.srca_row + dp.srca_x / 2) (dp.srcb_row + 2 * dp.srcb_x) s

/-- The loop of `dma2d_rgb565_blend_mono4_rgb565_last_col`. -/
def dma2d_rgb565_blend_mono4_rgb565_last_col_loop (E : gdc_env) (dp : dma2d_params_t) :
    Nat → Nat → Nat → Nat → dma2d_state → dma2d_state
  | 0, _, _, _, s => s
  | height + 1, dst_ptr, srca_ptr, srcb_ptr, s =>
    dma2d_rgb565_blend_mono4_rgb565_last_col_loop E dp height
      (dst_ptr + 2 * (dp.dst_stride / 2)) (srca_ptr + dp.srca_stride / 1)
      (srcb_ptr + 2 * (dp.srcb_stride / 2))
      (cpu_store16 s dst_ptr
        (E.gdc_color16_blend_a4 dp.srca_fg (E.gdc_color16_to_color (load16 s.mem srcb_ptr))
          (load8 s.mem srca_ptr % 16)))

/-- `dma2d_rgb565_blend_mono4_rgb565_last_col`. -/
def dma2d_rgb565_blend_mono4_rgb565_last_col (E : gdc_env) (dp : dma2d_params_t)
    (s : dma2d_state) : dma2d_state :=
  dma2d_rgb565_blend_mono4_rgb565_last_col_loop E dp dp.height.toNat
    (dp.dst_row + 2 * ((dp.dst_x : Int) + dp.width - 1).toNat)
    (dp.srca_row + (((dp.srca_x : Int) + dp.width - 1) / 2).toNat)
    (dp.srcb_row + 2 * ((dp.srcb_x : Int) + dp.width - 1).toNat) s

/-- The descriptor and the module state threaded through
`dma2d_rgb565_blend_mono4_rgb565`. -/
structure blend_ctx where
  dp : dma2d_params_t
  s : dma2d_state

/-- `dma2d_rgb565_blend_mono4_rgb565`. -/
def dma2d_rgb565_blend_mono4_rgb565 (E : gdc_env) (s : dma2d_state) (dp : dma2d_params_t) :
    Bool × dma2d_params_t × dma2d_state :=
  let c : blend_ctx := ⟨dp, dma2d_wait E s⟩
  let c : blend_ctx :=
    if c.dp.srca_x % 2 = 1 then
      ⟨{ c.dp with dst_x := c.dp.dst_x + 1, srca_x := c.dp.srca_x + 1,
                   srcb_x := c.dp.srcb_x + 1, width := c.dp.width - 1 },
       dma2d_rgb565_blend_mono4_rgb565_first_col E c.dp c.s⟩
    else c
  let c : blend_ctx :=
    if c.dp.width > 0 ∧ c.dp.width % 2 = 1 then
      ⟨{ c.dp with width := c.dp.width - 1 },
       dma2d_rgb565_blend_mono4_rgb565_last_col E c.dp c.s⟩
    else c
  let dp := c.dp
  let s := c.s
  if dp.width > 0 then
    let s := { s with dma2d_handle := { s.dma2d_handle with
      Init := ⟨DMA2D_M2M_BLEND, DMA2D_OUTPUT_RGB565,
        toU32 ((dp.dst_stride / 2 : Nat) - dp.width)⟩ } }
    let s := HAL_DMA2D_Init s
    let s := { s with dma2d_handle := { s.dma2d_handle with
      LayerCfg1 := ⟨toU32 ((dp.srca_stride * 2 : Nat) - dp.width), DMA2D_INPUT_A4, 0,
        E.gdc_color_to_color32 dp.srca_fg % 4294967296⟩ } }
    let s := HAL_DMA2D_ConfigLayer s 1
    let s := { s with dma2d_handle := { s.dma2d_handle with
      LayerCfg0 := ⟨toU32 ((dp.srcb_stride / 2 : Nat) - dp.width), DMA2D_INPUT_RGB565, 0, 0⟩ } }
    let s := HAL_DMA2D_ConfigLayer s 0
    let s := HAL_DMA2D_BlendingStart E s ((dp.srca_row + dp.srca_x / 2) % 4294967296)
      ((dp.srcb_row + dp.srcb_x * 2) % 4294967296)
      ((dp.dst_row + dp.dst_x * 2) % 4294967296) (toU32 dp.width) (toU32 dp.height)
    (true, dp, s)
  else (true, dp, s)

/-! ## Pixel addressing used to state the properties -/

/-- Byte address of the 16-bit pixel `(x, r)` of a buffer, as the code steps
through it: rows are `stride / sizeof(uint16_t)` pixels apart. -/
def pixel16_addr (row stride x r : Nat) : Nat := row + 2 * (r * (stride / 2) + x)

/-- The mono4 sample with pixel index `i` in row `r`, as the code reads it:
byte `i / 2` of the row, high nibble when `i` is odd, low nibble when `i` is
even. -/
def mono4_pixel (m : Mem) (row stride i r : Nat) : Nat :=
  if i % 2 = 1 then load8 m (row + r * stride + i / 2) / 16
  else load8 m (row + r * stride + i / 2) % 16

/-- The mono4 sample with pixel index `i` in row `r` in the packing the spec
states: byte `i / 2` of the row, high nibble when `i` is even (first pixel of
the byte), low nibble when `i` is odd. -/
def mono4_pixel_spec (m : Mem) (row stride i r : Nat) : Nat :=
  if i % 2 = 0 then load8 m (row + r * stride + i / 2) / 16
  else load8 m (row + r * stride + i / 2) % 16

/-- Memory after a list of 16-bit CPU stores `(address, value)`. -/
def replay (m : Mem) (ws : List (Nat × Nat)) : Mem :=
  ws.foldl (fun m w => store16 m w.1 w.2) m

/-- The number of lookup-table programming calls in a HAL log. -/
def clut_calls (log : List hal_call) : Nat :=
  (log.filter (fun c => match c with
    | hal_call.HAL_DMA2D_ConfigCLUT _ => true
    | _ => false)).length

/-- The transfer starts in a HAL log. -/
def start_calls (log : List hal_call) : List hal_call :=
  log.filter (fun c => match c with
    | hal_call.HAL_DMA2D_Start _ _ _ _ => true
    | hal_call.HAL_DMA2D_BlendingStart _ _ _ _ _ => true
    | _ => false)

/-! ## Colour primitives as the spec describes them -/

/-- Modelled from the spec: one channel of the linear ramp
`bg + (fg - bg) * alpha / 15`, in C integer arithmetic. -/
def blend_channel_a4 (fg bg alpha : Nat) : Nat :=
  ((bg : Int) + (((fg : Int) - (bg : Int)) * (alpha : Int)).tdiv 15).toNat

/-- Modelled from the spec: `gdc_color16_blend_a4` of `gdc_color.h` (not among
the sources), the blend of `fg` over `bg` at step `alpha` of 15 in destination
format: the linear ramp on each of the 5/6/5-bit channels of RGB565.  The spec
fixes no representation of a logical colour; here a logical colour is carried
in the destination's packed RGB565 format. -/
def gdc_color16_blend_a4_spec (fg bg alpha : Nat) : Nat :=
  blend_channel_a4 (fg / 2048 % 32) (bg / 2048 % 32) alpha * 2048
    + blend_channel_a4 (fg / 32 % 64) (bg / 32 % 64) alpha * 32
    + blend_channel_a4 (fg % 32) (bg % 32) alpha

/-- Modelled from the spec: a logical colour converted to the 16-bit
destination format (`gdc_color_to_color16` of `gdc_color.h`). -/
def gdc_color_to_color16 (c : Nat) : Nat := c % 65536

/-- Modelled from the spec: an environment whose 16-bit colour primitives are
the ones the spec describes: the blend is the linear ramp, the 16-entry blend
table holds the blend at each step, and a 16-bit pixel is its own logical
colour.  Everything else is kept from `E`. -/
def gdc_env.spec16 (E : gdc_env) : gdc_env :=
  { E with
    gdc_color16_to_color := fun c => c
    gdc_color16_blend_a4 := gdc_color16_blend_a4_spec
    gdc_color16_gradient_a4 := fun fg bg i => gdc_color16_blend_a4_spec fg bg i }

/-- A concrete environment used for closed examples: colour words are passed
through unchanged, the engine truncates a colour word to 16 bits, takes the
first sample of a byte from its high nibble (the packing the spec states) and
needs two polls per transfer; the 16-bit colour primitives are those of the
spec. -/
def gdc_env.plain : gdc_env :=
  gdc_env.spec16
    { gdc_color_to_color32 := fun c => c
      gdc_color16_to_color := fun c => c
      gdc_color16_blend_a4 := fun _ _ _ => 0
      gdc_color32_blend_a4 := fun fg bg a => gdc_color16_blend_a4_spec fg bg a
      gdc_color16_gradient_a4 := fun _ _ _ => 0
      engine_out565 := fun c => c % 65536
      engine_nibble := fun b i => if i = 0 then b / 16 else b % 16
      engine_blend := fun fg a bg => gdc_color16_blend_a4_spec fg bg a
      engine_other := fun _ _ _ _ => 0
      engine_polls := fun _ => 2 }

/-- The handle before any entry point has run (all fields at their first
enumeration value or zero). -/
def dma2d_handle_reset : DMA2D_HandleTypeDef :=
  ⟨⟨DMA2D_M2M_PFC, DMA2D_OUTPUT_RGB565, 0⟩, ⟨0, DMA2D_INPUT_RGB565, 0, 0⟩,
   ⟨0, DMA2D_INPUT_RGB565, 0, 0⟩⟩

/-- The module state at process start over a given memory: lookup-table cache
zero-initialised, engine idle, nothing logged. -/
def dma2d_state_reset (m : Mem) : dma2d_state :=
  { mem := m
    dma2d_handle := dma2d_handle_reset
    FGCLUT := fun _ => 0
    BGCLUT := fun _ => 0
    cache := fun _ => ⟨0, 0⟩
    busy := 0
    pending := none
    hal_log := []
    cpu_log := [] }

/-- Memory holding the given bytes from address `base` on, zero elsewhere. -/
def mem_of_bytes (base : Nat) (bytes : List Nat) : Mem :=
  fun a => if base ≤ a then bytes.getD (a - base) 0 else 0

/-! ## `vg-2864ksweg01.c`: the display driver context -/

namespace Vg2864

/-- Modelled from the spec: `DISPLAY_RESX` of the board header (not among the
sources); the driver is for a 128x64 panel. -/
def DISPLAY_RESX : Nat := 128

/-- Modelled from the spec: `DISPLAY_RESY` of the board header. -/
def DISPLAY_RESY : Nat := 64

/-- The driver context `display_t`.  The SPI handle is represented by the
blocks of bytes transmitted through it (`spi_log`). -/
structure display_t where
  spi_log : List (List Nat)
  framebuf : Nat → Nat
  orientation_angle : Int
  backlight_level : Int

/-- `display_send_bytes`, with `HAL_SPI_Transmit` succeeding. -/
def display_send_bytes (display : display_t) (data : List Nat) : display_t :=
  { display with spi_log := display.spi_log ++ [data] }

/-- The macro `ROW_BYTE(src)`: one bit per row of an 8-row band. -/
def ROW_BYTE (framebuf : Nat → Nat) (src : Nat) : Nat :=
  (if framebuf (src + 0 * DISPLAY_RESX) % 256 ≠ 0 then 128 else 0)
  ||| (if framebuf (src + 1 * DISPLAY_RESX) % 256 ≠ 0 then 64 else 0)
  ||| (if framebuf (src + 2 * DISPLAY_RESX) % 256 ≠ 0 then 32 else 0)
  ||| (if framebuf (src + 3 * DISPLAY_RESX) % 256 ≠ 0 then 16 else 0)
  ||| (if framebuf (src + 4 * DISPLAY_RESX) % 256 ≠ 0 then 8 else 0)
  ||| (if framebuf (src + 5 * DISPLAY_RESX) % 256 ≠ 0 then 4 else 0)
  ||| (if framebuf (src + 6 * DISPLAY_RESX) % 256 ≠ 0 then 2 else 0)
  ||| (if framebuf (src + 7 * DISPLAY_RESX) % 256 ≠ 0 then 1 else 0)

/-- The buffer `buff` that `display_send_fb` fills for band `y`: left to right
when the orientation is 0, mirrored otherwise. -/
def display_band (display : display_t) (y : Nat) : List Nat :=
  (List.range DISPLAY_RESX).map (fun x =>
    if display.orientation_angle = 0
    then ROW_BYTE display.framebuf (y * DISPLAY_RESX * 8 + x)
    else ROW_BYTE display.framebuf (y * DISPLAY_RESX * 8 + (DISPLAY_RESX - 1 - x)))

/-- `display_send_fb`, with every `HAL_SPI_Transmit` succeeding: the cursor
sequence, then one block per band of eight rows. -/
def display_send_fb (display : display_t) : display_t :=
  (List.range (DISPLAY_RESY / 8)).foldl
    (fun d y => { d with spi_log := d.spi_log ++ [display_band d y] })
    (display_send_bytes display [0x00, 0x10, 0x40])

/-- The bytes of `vg_2864ksweg01_init_seq`. -/
def vg_2864ksweg01_init_seq : List Nat :=
  [0xAE, 0xD5, 0x80, 0xA8, 0x3F, 0xD3, 0x00, 0x40, 0x8D, 0x14, 0x20, 0x00, 0xA1, 0xC8,
   0xDA, 0x12, 0x81, 0xCF, 0xD9, 0xF1, 0xDB, 0x40, 0xA4, 0xA6, 0xAF]

/-- `xdisplay_init` on the driver instance `g_display`: the context is cleared
and the backlight level set; pin and SPI controller set-up have no effect on
the context; the command sequence and the frame buffer are sent. -/
def xdisplay_init (g_display : display_t) : display_t :=
  let display : display_t :=
    { spi_log := g_display.spi_log, framebuf := fun _ => 0,
      orientation_angle := 0, backlight_level := 0 }
  let display := { display with backlight_level := 255 }
  let display := display_send_bytes display vg_2864ksweg01_init_seq
  display_send_fb display

/-- `xdisplay_set_backlight`: the returned level and the new context. -/
def xdisplay_set_backlight (g_display : display_t) (_level : Int) : Int × display_t :=
  let display := { g_display with backlight_level := 255 }
  (display.backlight_level, display)

/-- `xdisplay_get_backlight`. -/
def xdisplay_get_backlight (g_display : display_t) : Int :=
  g_display.backlight_level

/-- `xdisplay_set_orientation`: the returned angle and the new context. -/
def xdisplay_set_orientation (g_display : display_t) (angle : Int) : Int × display_t :=
  let display :=
    if angle ≠ g_display.orientation_angle then
      if angle = 0 ∨ angle = 180 then
        display_send_fb { g_display with orientation_angle := angle }
      else g_display
    else g_display
  (display.orientation_angle, display)

/-- `xdisplay_get_orientation`. -/
def xdisplay_get_orientation (g_display : display_t) : Int :=
  g_display.orientation_angle

end Vg2864

/-! ## Auxiliary definitions: the stages of the entry points -/

/-- The common shape of the four CPU column loops: `val` computes the pixel
from memory and the two source pointers. -/
def cpu_column_loop (dstep astep bstep : Nat) (val : Mem → Nat → Nat → Nat) :
    Nat → Nat → Nat → Nat → dma2d_state → dma2d_state
  | 0, _, _, _, s => s
  | height + 1, dst_ptr, srca_ptr, srcb_ptr, s =>
    cpu_column_loop dstep astep bstep val height
      (dst_ptr + 2 * dstep) (srca_ptr + astep) (srcb_ptr + 2 * bstep)
      (cpu_store16 s dst_ptr (val s.mem srca_ptr srcb_ptr))

/-- First block of `dma2d_rgb565_copy_mono4`: `if (dp->srca_x & 1) { ... }`. -/
def copy_mono4_first (E : gdc_env) (c : copy_mono4_ctx) : copy_mono4_ctx :=
  if c.dp.srca_x % 2 = 1 then
    let g := E.gdc_color16_gradient_a4 c.dp.srca_fg c.dp.srca_bg
    ⟨some g,
     { c.dp with dst_x := c.dp.dst_x + 1, srca_x := c.dp.srca_x + 1, width := c.dp.width - 1 },
     dma2d_rgb565_copy_mono4_first_col c.dp g c.s⟩
  else c

/-- Second block of `dma2d_rgb565_copy_mono4`:
`if (dp->width > 0 && dp->width & 1) { ... }`. -/
def copy_mono4_last (E : gdc_env) (c : copy_mono4_ctx) : copy_mono4_ctx :=
  if c.dp.width > 0 ∧ c.dp.width % 2 = 1 then
    let g := c.srca_gradient.getD (E.gdc_color16_gradient_a4 c.dp.srca_fg c.dp.srca_bg)
    ⟨some g, { c.dp with width := c.dp.width - 1 },
     dma2d_rgb565_copy_mono4_last_col c.dp g c.s⟩
  else c

/-- Last part of `dma2d_rgb565_copy_mono4`: the engine is programmed and
started. -/
def copy_mono4_engine (E : gdc_env) (dp : dma2d_params_t) (s : dma2d_state) : dma2d_state :=
  let s := { s with dma2d_handle := { s.dma2d_handle with
    Init := ⟨DMA2D_M2M_PFC, DMA2D_OUTPUT_RGB565, toU32 ((dp.dst_stride / 2 : Nat) - dp.width)⟩ } }
  let s := HAL_DMA2D_Init s
  let s := { s with dma2d_handle := { s.dma2d_handle with
    LayerCfg1 := ⟨toU32 ((dp.srca_stride * 2 : Nat) - dp.width), DMA2D_INPUT_L4, 0, 0⟩ } }
  let s := HAL_DMA2D_ConfigLayer s 1
  let s := dma2d_config_clut E s 1 dp.srca_fg dp.srca_bg
  HAL_DMA2D_Start E s ((dp.srca_row + dp.srca_x / 2) % 4294967296)
    ((dp.dst_row + dp.dst_x * 2) % 4294967296) (toU32 dp.width) (toU32 dp.height)

/-- First block of `dma2d_rgb565_blend_mono4_rgb565`. -/
def blend_first (E : gdc_env) (c : blend_ctx) : blend_ctx :=
  if c.dp.srca_x % 2 = 1 then
    ⟨{ c.dp with dst_x := c.dp.dst_x + 1, srca_x := c.dp.srca_x + 1,
                 srcb_x := c.dp.srcb_x + 1, width := c.dp.width - 1 },
     dma2d_rgb565_blend_mono4_rgb565_first_col E c.dp c.s⟩
  else c

/-- Second block of `dma2d_rgb565_blend_mono4_rgb565`. -/
def blend_last (E : gdc_env) (c : blend_ctx) : blend_ctx :=
  if c.dp.width > 0 ∧ c.dp.width % 2 = 1 then
    ⟨{ c.dp with width := c.dp.width - 1 },
     dma2d_rgb565_blend_mono4_rgb565_last_col E c.dp c.s⟩
  else c

/-- The engine stage of `dma2d_rgb565_blend_mono4_rgb565` (the body of its
`if (dp->width > 0)`). -/
def blend_engine_start (E : gdc_env) (dp : dma2d_params_t) (s : dma2d_state) : dma2d_state :=
  let s := { s with dma2d_handle := { s.dma2d_handle with
    Init := ⟨DMA2D_M2M_BLEND, DMA2D_OUTPUT_RGB565,
      toU32 ((dp.dst_stride / 2 : Nat) - dp.width)⟩ } }
  let s := HAL_DMA2D_Init s
  let s := { s with dma2d_handle := { s.dma2d_handle with
    LayerCfg1 := ⟨toU32 ((dp.srca_stride * 2 : Nat) - dp.width), DMA2D_INPUT_A4, 0,
      E.gdc_color_to_color32 dp.srca_fg % 4294967296⟩ } }
  let s := HAL_DMA2D_ConfigLayer s 1
  let s := { s with dma2d_handle := { s.dma2d_handle with
    LayerCfg0 := ⟨toU32 ((dp.srcb_stride / 2 : Nat) - dp.width), DMA2D_INPUT_RGB565, 0, 0⟩ } }
  let s := HAL_DMA2D_ConfigLayer s 0
  HAL_DMA2D_BlendingStart E s ((dp.srca_row + dp.srca_x / 2) % 4294967296)
    ((dp.srcb_row + dp.srcb_x * 2) % 4294967296)
    ((dp.dst_row + dp.dst_x * 2) % 4294967296) (toU32 dp.width) (toU32 dp.height)

/-- Last part of `dma2d_rgb565_blend_mono4_rgb565`: the guarded engine stage. -/
def blend_engine (E : gdc_env) (dp : dma2d_params_t) (s : dma2d_state) : dma2d_state :=
  if dp.width > 0 then blend_engine_start E dp s else s

/-- The width `dma2d_rgb565_copy_mono4` and `dma2d_rgb565_blend_mono4_rgb565`
are left with after the first block: one less when `srca_x` is odd. -/
def width_after_first (dp : dma2d_params_t) : Int :=
  if dp.srca_x % 2 = 1 then dp.width - 1 else dp.width

/-- The number of CPU stores of the first block: one per row when `srca_x` is
odd, none otherwise. -/
def first_col_stores (dp : dma2d_params_t) : Nat :=
  if dp.srca_x % 2 = 1 then dp.height.toNat else 0

/-- The CPU stores made between two states of one run. -/
def cpu_stores (before after : dma2d_state) : List (Nat × Nat) :=
  after.cpu_log.drop before.cpu_log.length

/-- The HAL calls made between two states of one run. -/
def hal_calls (before after : dma2d_state) : List hal_call :=
  after.hal_log.drop before.hal_log.length

/-- Memory after a stream of 16-bit stores whose values may depend on the
memory reached so far. -/
def stream {ι : Type} (addr : ι → Nat) (px : Mem → ι → Nat) (js : List ι) (m : Mem) : Mem :=
  js.foldl (fun m j => store16 m (addr j) (px m j)) m

/-! ## Concrete inputs -/

/-- The descriptor of the concrete scenario of the spec: one row, destination
stride 16 bytes, `srca_x = 1`, width 5, colours `fg` and `bg`. -/
def scenario_dp (fg bg : Nat) : dma2d_params_t :=
  { dst_row := 0x1000, dst_x := 0, dst_stride := 16, width := 5, height := 1,
    srca_row := 0x2000, srca_x := 1, srca_stride := 4, srca_fg := fg, srca_bg := bg,
    srcb_row := 0x3000, srcb_x := 0, srcb_stride := 16 }

/-- The state of the concrete scenario: the mono4 source bytes
`{0x1F, 0x23, 0x45, 0x67}` at `srca_row`, everything else at reset. -/
def scenario_state : dma2d_state :=
  dma2d_state_reset (mem_of_bytes 0x2000 [0x1F, 0x23, 0x45, 0x67])

/-- A two-column, one-row descriptor with an odd start: both boundary columns
are drawn on the CPU (source pixel indices 1 and 2). -/
def two_column_dp : dma2d_params_t :=
  { scenario_dp 0xFFFF 0 with width := 2 }

/-- A blend over a two-column row with an odd start: mask bytes `0xF3, 0x20`
at `0x2000` (mask value 15 at index 1, 0 at index 2), background pixels
`0x1234, 0xABCD, 0x5678` at `0x3000`. -/
def blend_state : dma2d_state :=
  dma2d_state_reset (fun a =>
    if 0x3000 ≤ a then [0x34, 0x12, 0xCD, 0xAB, 0x78, 0x56].getD (a - 0x3000) 0
    else if 0x2000 ≤ a then [0xF3, 0x20].getD (a - 0x2000) 0
    else 0)

/-- The descriptor of the blend example: foreground `0x07E0`, background
image at `srcb_row`, columns 1 and 2 of the mask. -/
def blend_dp : dma2d_params_t :=
  { dst_row := 0x1000, dst_x := 0, dst_stride := 16, width := 2, height := 1,
    srca_row := 0x2000, srca_x := 1, srca_stride := 4, srca_fg := 0x07E0, srca_bg := 0,
    srcb_row := 0x3000, srcb_x := 1, srcb_stride := 16 }

/-- A 16-bit copy whose source starts one pixel after its destination in the
same row of the same buffer: two pixels are moved one place to the left. -/
def overlap_dp : dma2d_params_t :=
  { dst_row := 0x1000, dst_x := 0, dst_stride := 16, width := 2, height := 1,
    srca_row := 0x1000, srca_x := 1, srca_stride := 16, srca_fg := 0, srca_bg := 0,
    srcb_row := 0, srcb_x := 0, srcb_stride := 0 }

/-- Three 16-bit pixels `1, 2, 3` at address `0x1000`, everything else at reset. -/
def overlap_state : dma2d_state :=
  dma2d_state_reset (mem_of_bytes 0x1000 [1, 0, 2, 0, 3, 0])

/-- A 16-bit copy of a 2x2 rectangle between two separate buffers. -/
def separate_dp : dma2d_params_t :=
  { dst_row := 0x1000, dst_x := 1, dst_stride := 16, width := 2, height := 2,
    srca_row := 0x3000, srca_x := 0, srca_stride := 8, srca_fg := 0x07E0, srca_bg := 0,
    srcb_row := 0, srcb_x := 0, srcb_stride := 0 }

/-- The blend example widened to four columns: with the odd start, a first
column, a two-column transfer and a last column. -/
def blend_dp4 : dma2d_params_t :=
  { blend_dp with width := 4 }

/-- The hardware lookup table of a layer, as `dma2d_config_clut` selects it:
`layer ? FGCLUT : BGCLUT`. -/
def clut_of (s : dma2d_state) (layer : Nat) : Nat → Nat :=
  if layer ≠ 0 then s.FGCLUT else s.BGCLUT

/-- The hardware lookup table of `layer` holds, for every step `i` in 0..15,
the blend of `fg` over `bg` at step `i` of 15 (as a 32-bit word). -/
def clut_holds (E : gdc_env) (s : dma2d_state) (layer fg bg : Nat) : Prop :=
  ∀ i, i < GRADIENT_STEPS → clut_of s layer i = E.gdc_color32_blend_a4 fg bg i % 4294967296

/-- The module state at process start: lookup-table cache zero-initialised,
engine idle, nothing logged; the hardware lookup tables have not been
programmed and hold whatever `fgclut` and `bgclut` are. -/
def dma2d_state_start (m : Mem) (fgclut bgclut : Nat → Nat) : dma2d_state :=
  { dma2d_state_reset m with FGCLUT := fgclut, BGCLUT := bgclut }

/-- A call of one of the five entry points of the compositor. -/
inductive dma2d_op
  | fill (dp : dma2d_params_t)
  | copy_mono4 (dp : dma2d_params_t)
  | copy_rgb565 (dp : dma2d_params_t)
  | blend_mono4_mono4 (dp : dma2d_params_t)
  | blend_mono4_rgb565 (dp : dma2d_params_t)

/-- The state after one entry-point call. -/
def dma2d_run_op (E : gdc_env) (s : dma2d_state) (op : dma2d_op) : dma2d_state :=
  match op with
  | dma2d_op.fill dp => (dma2d_rgb565_fill E s dp).2.2
  | dma2d_op.copy_mono4 dp => (dma2d_rgb565_copy_mono4 E s dp).2.2
  | dma2d_op.copy_rgb565 dp => (dma2d_rgb565_copy_rgb565 E s dp).2.2
  | dma2d_op.blend_mono4_mono4 dp => (dma2d_rgb565_blend_mono4_mono4 E s dp).2.2
  | dma2d_op.blend_mono4_rgb565 dp => (dma2d_rgb565_blend_mono4_rgb565 E s dp).2.2

/-- The state after a sequence of entry-point calls. -/
def dma2d_run (E : gdc_env) (s : dma2d_state) (ops : List dma2d_op) : dma2d_state :=
  ops.foldl (dma2d_run_op E) s

/-- What the lookup-table cache promises: for each of the two layers, the
cached pair is still the zero pair of process start or the hardware table holds
the blend of the cached pair. -/
def clut_cache_inv (E : gdc_env) (s : dma2d_state) : Prop :=
  ∀ layer, layer < LAYER_COUNT →
    s.cache layer = ⟨0, 0⟩ ∨
      clut_holds E s layer (s.cache layer).c_fg (s.cache layer).c_bg

/-- Process start with lookup tables that were never written: every entry
reads `0xFFFFFFFF`. -/
def unprogrammed_state : dma2d_state :=
  dma2d_state_start (mem_of_bytes 0x2000 [0x1F, 0x23, 0x45, 0x67])
    (fun _ => 0xFFFFFFFF) (fun _ => 0xFFFFFFFF)

namespace Vg2864

/-- The driver instance `g_display` at process start: static storage, all
zero. -/
def g_display_reset : display_t :=
  { spi_log := [], framebuf := fun _ => 0, orientation_angle := 0, backlight_level := 0 }

/-- `xdisplay_swap_fb`: the current frame buffer is sent to the display (the
randomisation of the consumption mask is outside the driver context). -/
def xdisplay_swap_fb (g_display : display_t) : display_t :=
  display_send_fb g_display

/-- A call of the display API that does not reinitialise the driver. -/
inductive xdisplay_call
  | set_orientation (angle : Int)
  | set_backlight (level : Int)
  | swap_fb

/-- One call of a sequence: the value returned by the last
`xdisplay_set_orientation` so far (if any) and the driver context. -/
def xdisplay_run_call (p : Option Int × display_t) (c : xdisplay_call) :
    Option Int × display_t :=
  match c with
  | xdisplay_call.set_orientation angle =>
      (some (xdisplay_set_orientation p.2 angle).1, (xdisplay_set_orientation p.2 angle).2)
  | xdisplay_call.set_backlight level => (p.1, (xdisplay_set_backlight p.2 level).2)
  | xdisplay_call.swap_fb => (p.1, xdisplay_swap_fb p.2)

/-- A sequence of calls run from the context `g_display`. -/
def xdisplay_run (g_display : display_t) (calls : List xdisplay_call) :
    Option Int × display_t :=
  calls.foldl xdisplay_run_call (none, g_display)

end Vg2864

/-! # Theorems

## The polling loop ends -/

theorem dma2d_wait_fuel_busy (E : gdc_env) :
    ∀ (n : Nat) (s : dma2d_state), s.busy = n →
      dma2d_wait_fuel E (n + 1) s = some (dma2d_complete E s) := by
  intro n
  induction n with
  | zero =>
    intro s h
    simp [dma2d_wait_fuel, HAL_DMA2D_PollForTransfer, h]
  | succ k ih =>
    intro s h
    have h2 := ih { s with busy := k } rfl
    rw [dma2d_wait_fuel]
    simp only [HAL_DMA2D_PollForTransfer, h]
    simp only [Bool.false_eq_true, if_false]
    rw [h2]
    rfl

theorem dma2d_wait_eq (E : gdc_env) (s : dma2d_state) :
    dma2d_wait E s = dma2d_complete E s := by
  simp [dma2d_wait, dma2d_wait_fuel_busy E s.busy s rfl]

theorem dma2d_wait_cpu_log (E : gdc_env) (s : dma2d_state) :
    (dma2d_wait E s).cpu_log = s.cpu_log := by
  rw [dma2d_wait_eq]; rfl

theorem dma2d_wait_frame (E : gdc_env) (s : dma2d_state) :
    (dma2d_wait E s).hal_log = s.hal_log ∧ (dma2d_wait E s).cache = s.cache ∧
    (dma2d_wait E s).dma2d_handle = s.dma2d_handle ∧ (dma2d_wait E s).FGCLUT = s.FGCLUT ∧
    (dma2d_wait E s).BGCLUT = s.BGCLUT := by
  rw [dma2d_wait_eq]; exact ⟨rfl, rfl, rfl, rfl, rfl⟩

theorem wait_mem_of_pending (E : gdc_env) (s : dma2d_state) (t : dma2d_transfer)
    (h : s.pending = some t) :
    (dma2d_wait E s).mem = dma2d_engine_run E s.FGCLUT t s.mem := by
  rw [dma2d_wait_eq]
  simp [dma2d_complete, h]

/-! ## CPU column loops -/

theorem replay_append (m : Mem) (a b : List (Nat × Nat)) :
    replay m (a ++ b) = replay (replay m a) b := by
  simp [replay, List.foldl_append]

theorem replay_cons (m : Mem) (w : Nat × Nat) (ws : List (Nat × Nat)) :
    replay m (w :: ws) = replay (store16 m w.1 w.2) ws := rfl

theorem cpu_column_loop_spec (dstep astep bstep : Nat) (val : Mem → Nat → Nat → Nat) :
    ∀ (n dst sa sb : Nat) (s : dma2d_state), ∃ ws : List (Nat × Nat),
      ws.length = n ∧
      cpu_column_loop dstep astep bstep val n dst sa sb s =
        { s with mem := replay s.mem ws, cpu_log := s.cpu_log ++ ws } ∧
      ∀ r, r < n → ws.get? r =
        some (dst + 2 * (r * dstep),
              val (replay s.mem (ws.take r)) (sa + r * astep) (sb + 2 * (r * bstep))) := by
  intro n
  induction n with
  | zero =>
    intro dst sa sb s
    exact ⟨[], rfl, by simp [cpu_column_loop, replay], by intro r hr; omega⟩
  | succ k ih =>
    intro dst sa sb s
    obtain ⟨ws, hlen, heq, hget⟩ :=
      ih (dst + 2 * dstep) (sa + astep) (sb + 2 * bstep)
        (cpu_store16 s dst (val s.mem sa sb))
    refine ⟨(dst, val s.mem sa sb) :: ws, by simp [hlen], ?_, ?_⟩
    · rw [cpu_column_loop, heq]
      simp [cpu_store16, replay_cons]
    · intro r hr
      cases r with
      | zero => simp [replay]
      | succ j =>
        have hj := hget j (by omega)
        simp only [List.get?_cons_succ, List.take_succ_cons, replay_cons]
        rw [hj]
        simp only [cpu_store16]
        have e1 : dst + 2 * dstep + 2 * (j * dstep) = dst + 2 * ((j + 1) * dstep) := by ring
        have e2 : sa + astep + j * astep = sa + (j + 1) * astep := by ring
        have e3 : sb + 2 * bstep + 2 * (j * bstep) = sb + 2 * ((j + 1) * bstep) := by ring
        rw [e1, e2, e3]

theorem copy_mono4_first_col_loop_eq (dp : dma2d_params_t) (gradient : Nat → Nat) :
    ∀ (n dst sa : Nat) (sb : Nat) (s : dma2d_state),
      dma2d_rgb565_copy_mono4_first_col_loop dp gradient n dst sa s =
        cpu_column_loop (dp.dst_stride / 2) dp.srca_stride 0
          (fun m a _ => gradient (load8 m a / 16)) n dst sa sb s := by
  intro n
  induction n with
  | zero => intros; rfl
  | succ k ih =>
    intro dst sa sb s
    rw [dma2d_rgb565_copy_mono4_first_col_loop, cpu_column_loop, Nat.div_one]
    exact ih _ _ _ _

theorem copy_mono4_last_col_loop_eq (dp : dma2d_params_t) (gradient : Nat → Nat) :
    ∀ (n dst sa : Nat) (sb : Nat) (s : dma2d_state),
      dma2d_rgb565_copy_mono4_last_col_loop dp gradient n dst sa s =
        cpu_column_loop (dp.dst_stride / 2) dp.srca_stride 0
          (fun m a _ => gradient (load8 m a % 16)) n dst sa sb s := by
  intro n
  induction n with
  | zero => intros; rfl
  | succ k ih =>
    intro dst sa sb s
    rw [dma2d_rgb565_copy_mono4_last_col_loop, cpu_column_loop, Nat.div_one]
    exact ih _ _ _ _

theorem blend_first_col_loop_eq (E : gdc_env) (dp : dma2d_params_t) :
    ∀ (n dst sa sb : Nat) (s : dma2d_state),
      dma2d_rgb565_blend_mono4_rgb565_first_col_loop E dp n dst sa sb s =
        cpu_column_loop (dp.dst_stride / 2) dp.srca_stride (dp.srcb_stride / 2)
          (fun m a b => E.gdc_color16_blend_a4 dp.srca_fg
            (E.gdc_color16_to_color (load16 m b)) (load8 m a / 16)) n dst sa sb s := by
  intro n
  induction n with
  | zero => intros; rfl
  | succ k ih =>
    intro dst sa sb s
    rw [dma2d_rgb565_blend_mono4_rgb565_first_col_loop, cpu_column_loop, Nat.div_one]
    exact ih _ _ _ _

theorem blend_last_col_loop_eq (E : gdc_env) (dp : dma2d_params_t) :
    ∀ (n dst sa sb : Nat) (s : dma2d_state),
      dma2d_rgb565_blend_mono4_rgb565_last_col_loop E dp n dst sa sb s =
        cpu_column_loop (dp.dst_stride / 2) dp.srca_stride (dp.srcb_stride / 2)
          (fun m a b => E.gdc_color16_blend_a4 dp.srca_fg
            (E.gdc_color16_to_color (load16 m b)) (load8 m a % 16)) n dst sa sb s := by
  intro n
  induction n with
  | zero => intros; rfl
  | succ k ih =>
    intro dst sa sb s
    rw [dma2d_rgb565_blend_mono4_rgb565_last_col_loop, cpu_column_loop, Nat.div_one]
    exact ih _ _ _ _

theorem copy_mono4_first_col_spec (dp : dma2d_params_t) (g : Nat → Nat) (s : dma2d_state)
    (hodd : dp.srca_x % 2 = 1) :
    ∃ ws : List (Nat × Nat), ws.length = dp.height.toNat ∧
      dma2d_rgb565_copy_mono4_first_col dp g s =
        { s with mem := replay s.mem ws, cpu_log := s.cpu_log ++ ws } ∧
      ∀ r, r < dp.height.toNat → ws.get? r =
        some (pixel16_addr dp.dst_row dp.dst_stride dp.dst_x r,
          g (mono4_pixel (replay s.mem (ws.take r)) dp.srca_row dp.srca_stride dp.srca_x r)) := by
  obtain ⟨ws, hlen, heq, hget⟩ := cpu_column_loop_spec (dp.dst_stride / 2) dp.srca_stride 0
    (fun m a _ => g (load8 m a / 16)) dp.height.toNat (dp.dst_row + 2 * dp.dst_x)
    (dp.srca_row + dp.srca_x / 2) 0 s
  refine ⟨ws, hlen, ?_, ?_⟩
  · rw [dma2d_rgb565_copy_mono4_first_col, copy_mono4_first_col_loop_eq dp g _ _ _ 0, heq]
  · intro r hr
    rw [hget r hr]
    simp only [pixel16_addr, mono4_pixel, hodd, if_true]
    have e1 : dp.dst_row + 2 * dp.dst_x + 2 * (r * (dp.dst_stride / 2))
        = dp.dst_row + 2 * (r * (dp.dst_stride / 2) + dp.dst_x) := by ring
    have e2 : dp.srca_row + dp.srca_x / 2 + r * dp.srca_stride
        = dp.srca_row + r * dp.srca_stride + dp.srca_x / 2 := by ring
    rw [e1, e2]

theorem copy_mono4_last_col_spec (dp : dma2d_params_t) (g : Nat → Nat) (s : dma2d_state)
    (hw : 0 < dp.width) (hev : (dp.srca_x + dp.width.toNat - 1) % 2 = 0) :
    ∃ ws : List (Nat × Nat), ws.length = dp.height.toNat ∧
      dma2d_rgb565_copy_mono4_last_col dp g s =
        { s with mem := replay s.mem ws, cpu_log := s.cpu_log ++ ws } ∧
      ∀ r, r < dp.height.toNat → ws.get? r =
        some (pixel16_addr dp.dst_row dp.dst_stride (dp.dst_x + dp.width.toNat - 1) r,
          g (mono4_pixel (replay s.mem (ws.take r)) dp.srca_row dp.srca_stride
            (dp.srca_x + dp.width.toNat - 1) r)) := by
  have ha : ((dp.dst_x : Int) + dp.width - 1).toNat = dp.dst_x + dp.width.toNat - 1 := by omega
  have hb : (((dp.srca_x : Int) + dp.width - 1) / 2).toNat
      = (dp.srca_x + dp.width.toNat - 1) / 2 := by omega
  obtain ⟨ws, hlen, heq, hget⟩ := cpu_column_loop_spec (dp.dst_stride / 2) dp.srca_stride 0
    (fun m a _ => g (load8 m a % 16)) dp.height.toNat
    (dp.dst_row + 2 * (dp.dst_x + dp.width.toNat - 1))
    (dp.srca_row + (dp.srca_x + dp.width.toNat - 1) / 2) 0 s
  refine ⟨ws, hlen, ?_, ?_⟩
  · rw [dma2d_rgb565_copy_mono4_last_col, copy_mono4_last_col_loop_eq dp g _ _ _ 0, ha, hb, heq]
  · intro r hr
    rw [hget r hr]
    simp only [pixel16_addr, mono4_pixel, hev]
    have e1 : dp.dst_row + 2 * (dp.dst_x + dp.width.toNat - 1) + 2 * (r * (dp.dst_stride / 2))
        = dp.dst_row + 2 * (r * (dp.dst_stride / 2) + (dp.dst_x + dp.width.toNat - 1)) := by ring
    have e2 : dp.srca_row + (dp.srca_x + dp.width.toNat - 1) / 2 + r * dp.srca_stride
        = dp.srca_row + r * dp.srca_stride + (dp.srca_x + dp.width.toNat - 1) / 2 := by ring
    rw [e1, e2]
    simp

theorem blend_first_col_spec (E : gdc_env) (dp : dma2d_params_t) (s : dma2d_state)
    (hodd : dp.srca_x % 2 = 1) :
    ∃ ws : List (Nat × Nat), ws.length = dp.height.toNat ∧
      dma2d_rgb565_blend_mono4_rgb565_first_col E dp s =
        { s with mem := replay s.mem ws, cpu_log := s.cpu_log ++ ws } ∧
      ∀ r, r < dp.height.toNat → ws.get? r =
        some (pixel16_addr dp.dst_row dp.dst_stride dp.dst_x r,
          E.gdc_color16_blend_a4 dp.srca_fg
            (E.gdc_color16_to_color (load16 (replay s.mem (ws.take r))
              (pixel16_addr dp.srcb_row dp.srcb_stride dp.srcb_x r)))
            (mono4_pixel (replay s.mem (ws.take r)) dp.srca_row dp.srca_stride dp.srca_x r)) := by
  obtain ⟨ws, hlen, heq, hget⟩ := cpu_column_loop_spec (dp.dst_stride / 2) dp.srca_stride
    (dp.srcb_stride / 2)
    (fun m a b => E.gdc_color16_blend_a4 dp.srca_fg
      (E.gdc_color16_to_color (load16 m b)) (load8 m a / 16)) dp.height.toNat
    (dp.dst_row + 2 * dp.dst_x) (dp.srca_row + dp.srca_x / 2) (dp.srcb_row + 2 * dp.srcb_x) s
  refine ⟨ws, hlen, ?_, ?_⟩
  · rw [dma2d_rgb565_blend_mono4_rgb565_first_col, blend_first_col_loop_eq, heq]
  · intro r hr
    rw [hget r hr]
    simp only [pixel16_addr, mono4_pixel, hodd, if_true]
    have e1 : dp.dst_row + 2 * dp.dst_x + 2 * (r * (dp.dst_stride / 2))
        = dp.dst_row + 2 * (r * (dp.dst_stride / 2) + dp.dst_x) := by ring
    have e2 : dp.srca_row + dp.srca_x / 2 + r * dp.srca_stride
        = dp.srca_row + r * dp.srca_stride + dp.srca_x / 2 := by ring
    have e3 : dp.srcb_row + 2 * dp.srcb_x + 2 * (r * (dp.srcb_stride / 2))
        = dp.srcb_row + 2 * (r * (dp.srcb_stride / 2) + dp.srcb_x) := by ring
    rw [e1, e2, e3]

theorem blend_last_col_spec (E : gdc_env) (dp : dma2d_params_t) (s : dma2d_state)
    (hw : 0 < dp.width) (hev : (dp.srca_x + dp.width.toNat - 1) % 2 = 0) :
    ∃ ws : List (Nat × Nat), ws.length = dp.height.toNat ∧
      dma2d_rgb565_blend_mono4_rgb565_last_col E dp s =
        { s with mem := replay s.mem ws, cpu_log := s.cpu_log ++ ws } ∧
      ∀ r, r < dp.height.toNat → ws.get? r =
        some (pixel16_addr dp.dst_row dp.dst_stride (dp.dst_x + dp.width.toNat - 1) r,
          E.gdc_color16_blend_a4 dp.srca_fg
            (E.gdc_color16_to_color (load16 (replay s.mem (ws.take r))
              (pixel16_addr dp.srcb_row dp.srcb_stride (dp.srcb_x + dp.width.toNat - 1) r)))
            (mono4_pixel (replay s.mem (ws.take r)) dp.srca_row dp.srca_stride
              (dp.srca_x + dp.width.toNat - 1) r)) := by
  have ha : ((dp.dst_x : Int) + dp.width - 1).toNat = dp.dst_x + dp.width.toNat - 1 := by omega
  have hb : (((dp.srca_x : Int) + dp.width - 1) / 2).toNat
      = (dp.srca_x + dp.width.toNat - 1) / 2 := by omega
  have hc : ((dp.srcb_x : Int) + dp.width - 1).toNat = dp.srcb_x + dp.width.toNat - 1 := by omega
  obtain ⟨ws, hlen, heq, hget⟩ := cpu_column_loop_spec (dp.dst_stride / 2) dp.srca_stride
    (dp.srcb_stride / 2)
    (fun m a b => E.gdc_color16_blend_a4 dp.srca_fg
      (E.gdc_color16_to_color (load16 m b)) (load8 m a % 16)) dp.height.toNat
    (dp.dst_row + 2 * (dp.dst_x + dp.width.toNat - 1))
    (dp.srca_row + (dp.srca_x + dp.width.toNat - 1) / 2)
    (dp.srcb_row + 2 * (dp.srcb_x + dp.width.toNat - 1)) s
  refine ⟨ws, hlen, ?_, ?_⟩
  · rw [dma2d_rgb565_blend_mono4_rgb565_last_col, blend_last_col_loop_eq, ha, hb, hc, heq]
  · intro r hr
    rw [hget r hr]
    simp only [pixel16_addr, mono4_pixel, hev]
    have e1 : dp.dst_row + 2 * (dp.dst_x + dp.width.toNat - 1) + 2 * (r * (dp.dst_stride / 2))
        = dp.dst_row + 2 * (r * (dp.dst_stride / 2) + (dp.dst_x + dp.width.toNat - 1)) := by ring
    have e2 : dp.srca_row + (dp.srca_x + dp.width.toNat - 1) / 2 + r * dp.srca_stride
        = dp.srca_row + r * dp.srca_stride + (dp.srca_x + dp.width.toNat - 1) / 2 := by ring
    have e3 : dp.srcb_row + 2 * (dp.srcb_x + dp.width.toNat - 1) + 2 * (r * (dp.srcb_stride / 2))
        = dp.srcb_row + 2 * (r * (dp.srcb_stride / 2) + (dp.srcb_x + dp.width.toNat - 1)) := by
      ring
    rw [e1, e2, e3]
    simp

/-! ## `dma2d_rgb565_copy_mono4` by stages -/

theorem copy_mono4_unfold (E : gdc_env) (s : dma2d_state) (dp : dma2d_params_t) :
    dma2d_rgb565_copy_mono4 E s dp =
      (true, (copy_mono4_last E (copy_mono4_first E ⟨none, dp, dma2d_wait E s⟩)).dp,
        copy_mono4_engine E (copy_mono4_last E (copy_mono4_first E ⟨none, dp, dma2d_wait E s⟩)).dp
          (copy_mono4_last E (copy_mono4_first E ⟨none, dp, dma2d_wait E s⟩)).s) := rfl

theorem config_clut_mem (E : gdc_env) (s : dma2d_state) (layer fg bg : Nat) :
    (dma2d_config_clut E s layer fg bg).mem = s.mem ∧
    (dma2d_config_clut E s layer fg bg).cpu_log = s.cpu_log ∧
    (dma2d_config_clut E s layer fg bg).dma2d_handle = s.dma2d_handle ∧
    (dma2d_config_clut E s layer fg bg).pending = s.pending ∧
    (dma2d_config_clut E s layer fg bg).busy = s.busy := by
  unfold dma2d_config_clut
  split
  · simp
  · split
    · split <;> simp [HAL_DMA2D_ConfigCLUT]
    · simp

theorem config_clut_log (E : gdc_env) (s : dma2d_state) (fg bg : Nat) :
    (dma2d_config_clut E s 1 fg bg).hal_log =
      s.hal_log ++ (if fg ≠ (s.cache 1).c_fg ∨ bg ≠ (s.cache 1).c_bg
        then [hal_call.HAL_DMA2D_ConfigCLUT 1] else []) := by
  unfold dma2d_config_clut
  simp only [LAYER_COUNT]
  split
  · omega
  · split <;> simp [HAL_DMA2D_ConfigCLUT]

theorem config_clut_cache (E : gdc_env) (s : dma2d_state) (fg bg : Nat) :
    (dma2d_config_clut E s 1 fg bg).cache 1 = ⟨fg, bg⟩ := by
  unfold dma2d_config_clut
  simp only [LAYER_COUNT]
  split
  · omega
  · split
    · simp [HAL_DMA2D_ConfigCLUT]
    · rename_i h
      simp only [not_or, not_not] at h
      rw [h.1, h.2]

theorem copy_mono4_engine_cpu (E : gdc_env) (dp : dma2d_params_t) (s : dma2d_state) :
    (copy_mono4_engine E dp s).cpu_log = s.cpu_log ∧ (copy_mono4_engine E dp s).mem = s.mem := by
  simp [copy_mono4_engine, HAL_DMA2D_Start, (config_clut_mem E _ 1 _ _).1,
    (config_clut_mem E _ 1 _ _).2.1, HAL_DMA2D_ConfigLayer, HAL_DMA2D_Init]

theorem copy_mono4_engine_log (E : gdc_env) (dp : dma2d_params_t) (s : dma2d_state) :
    (copy_mono4_engine E dp s).hal_log =
      s.hal_log ++
       ([hal_call.HAL_DMA2D_Init
          ⟨DMA2D_M2M_PFC, DMA2D_OUTPUT_RGB565, toU32 ((dp.dst_stride / 2 : Nat) - dp.width)⟩,
        hal_call.HAL_DMA2D_ConfigLayer 1
          ⟨toU32 ((dp.srca_stride * 2 : Nat) - dp.width), DMA2D_INPUT_L4, 0, 0⟩]
       ++ (if dp.srca_fg ≠ (s.cache 1).c_fg ∨ dp.srca_bg ≠ (s.cache 1).c_bg
            then [hal_call.HAL_DMA2D_ConfigCLUT 1] else [])
       ++ [hal_call.HAL_DMA2D_Start ((dp.srca_row + dp.srca_x / 2) % 4294967296)
            ((dp.dst_row + dp.dst_x * 2) % 4294967296) (toU32 dp.width) (toU32 dp.height)]) := by
  simp [copy_mono4_engine, HAL_DMA2D_Start, config_clut_log, HAL_DMA2D_ConfigLayer,
    HAL_DMA2D_Init]

theorem copy_mono4_engine_cache (E : gdc_env) (dp : dma2d_params_t) (s : dma2d_state) :
    (copy_mono4_engine E dp s).cache 1 = ⟨dp.srca_fg, dp.srca_bg⟩ := by
  simp [copy_mono4_engine, HAL_DMA2D_Start, config_clut_cache]

theorem copy_mono4_trim_spec (E : gdc_env) (s0 : dma2d_state) (dp : dma2d_params_t) :
    ∃ ws1 ws2 : List (Nat × Nat),
      ws1.length = first_col_stores dp ∧
      ws2.length = (if 0 < width_after_first dp ∧ width_after_first dp % 2 = 1
        then dp.height.toNat else 0) ∧
      (copy_mono4_last E (copy_mono4_first E ⟨none, dp, s0⟩)).s =
        { s0 with mem := replay s0.mem (ws1 ++ ws2), cpu_log := s0.cpu_log ++ (ws1 ++ ws2) } ∧
      (copy_mono4_last E (copy_mono4_first E ⟨none, dp, s0⟩)).dp =
        { dp with
          dst_x := if dp.srca_x % 2 = 1 then dp.dst_x + 1 else dp.dst_x
          srca_x := if dp.srca_x % 2 = 1 then dp.srca_x + 1 else dp.srca_x
          width := if 0 < width_after_first dp ∧ width_after_first dp % 2 = 1
            then width_after_first dp - 1 else width_after_first dp } ∧
      (dp.srca_x % 2 = 1 → ∀ r, r < dp.height.toNat → ws1.get? r =
        some (pixel16_addr dp.dst_row dp.dst_stride dp.dst_x r,
          E.gdc_color16_gradient_a4 dp.srca_fg dp.srca_bg
            (mono4_pixel (replay s0.mem (ws1.take r)) dp.srca_row dp.srca_stride dp.srca_x r))) ∧
      (0 < width_after_first dp ∧ width_after_first dp % 2 = 1 →
        ∀ r, r < dp.height.toNat → ws2.get? r =
        some (pixel16_addr dp.dst_row dp.dst_stride (dp.dst_x + dp.width.toNat - 1) r,
          E.gdc_color16_gradient_a4 dp.srca_fg dp.srca_bg
            (mono4_pixel (replay (replay s0.mem ws1) (ws2.take r)) dp.srca_row dp.srca_stride
              (dp.srca_x + dp.width.toNat - 1) r))) := by
  by_cases hodd : dp.srca_x % 2 = 1
  · obtain ⟨ws1, hlen1, heq1, hget1⟩ := copy_mono4_first_col_spec dp
      (E.gdc_color16_gradient_a4 dp.srca_fg dp.srca_bg) s0 hodd
    by_cases hlast : 0 < dp.width - 1 ∧ (dp.width - 1) % 2 = 1
    · obtain ⟨ws2, hlen2, heq2, hget2⟩ := copy_mono4_last_col_spec
        { dp with dst_x := dp.dst_x + 1, srca_x := dp.srca_x + 1, width := dp.width - 1 }
        (E.gdc_color16_gradient_a4 dp.srca_fg dp.srca_bg)
        (dma2d_rgb565_copy_mono4_first_col dp (E.gdc_color16_gradient_a4 dp.srca_fg dp.srca_bg) s0)
        hlast.1 (by simp only; omega)
      refine ⟨ws1, ws2, ?_, ?_, ?_, ?_, ?_, ?_⟩
      · simp [first_col_stores, hodd, hlen1]
      · simpa [width_after_first, hodd, hlast] using hlen2
      · simp only [copy_mono4_first, copy_mono4_last, hodd, if_true, gt_iff_lt, hlast,
          and_self, Option.getD_some]
        rw [heq2, heq1]
        simp [replay_append]
      · simp [copy_mono4_first, copy_mono4_last, hodd, hlast, width_after_first]
      · intro _ r hr
        exact hget1 r hr
      · intro _ r hr
        have h2 := hget2 r hr
        simp only at h2
        rw [heq1] at h2
        simp only at h2
        rw [h2]
        have ea : dp.dst_x + 1 + (dp.width - 1).toNat - 1 = dp.dst_x + dp.width.toNat - 1 := by
          omega
        have eb : dp.srca_x + 1 + (dp.width - 1).toNat - 1 = dp.srca_x + dp.width.toNat - 1 := by
          omega
        rw [ea, eb]
    · refine ⟨ws1, [], ?_, ?_, ?_, ?_, ?_, ?_⟩
      · simp [first_col_stores, hodd, hlen1]
      · simp only [width_after_first, hodd, if_true]
        rw [if_neg hlast]
        rfl
      · simp only [copy_mono4_first, copy_mono4_last, hodd, if_true, gt_iff_lt, hlast,
          if_false]
        rw [heq1]
        simp
      · simp only [copy_mono4_first, copy_mono4_last, hodd, if_true, gt_iff_lt,
          width_after_first]
        rw [if_neg hlast, if_neg hlast]
      · intro _ r hr
        exact hget1 r hr
      · intro h
        simp only [width_after_first, hodd, if_true] at h
        exact absurd h hlast
  · by_cases hlast : 0 < dp.width ∧ dp.width % 2 = 1
    · obtain ⟨ws2, hlen2, heq2, hget2⟩ := copy_mono4_last_col_spec dp
        (E.gdc_color16_gradient_a4 dp.srca_fg dp.srca_bg) s0 hlast.1 (by omega)
      refine ⟨[], ws2, ?_, ?_, ?_, ?_, ?_, ?_⟩
      · simp [first_col_stores, hodd]
      · simpa [width_after_first, hodd, hlast] using hlen2
      · simp only [copy_mono4_first, copy_mono4_last, hodd, if_false, gt_iff_lt, hlast,
          and_self, if_true, Option.getD_none]
        rw [heq2]
        simp
      · simp [copy_mono4_first, copy_mono4_last, hodd, hlast, width_after_first]
      · intro h
        exact absurd h hodd
      · intro _ r hr
        simpa [replay] using hget2 r hr
    · refine ⟨[], [], ?_, ?_, ?_, ?_, ?_, ?_⟩
      · simp [first_col_stores, hodd]
      · simp [width_after_first, hodd, hlast]
      · simp [copy_mono4_first, copy_mono4_last, hodd, hlast, replay]
      · simp [copy_mono4_first, copy_mono4_last, hodd, hlast, width_after_first]
      · intro h
        exact absurd h hodd
      · intro h
        simp only [width_after_first, hodd, if_false] at h
        exact absurd h hlast

theorem copy_mono4_cpu_log (E : gdc_env) (s : dma2d_state) (dp : dma2d_params_t) :
    (dma2d_rgb565_copy_mono4 E s dp).2.2.cpu_log =
      (copy_mono4_last E (copy_mono4_first E ⟨none, dp, dma2d_wait E s⟩)).s.cpu_log := by
  rw [copy_mono4_unfold]
  exact (copy_mono4_engine_cpu E _ _).1

theorem copy_mono4_hal_log (E : gdc_env) (s : dma2d_state) (dp : dma2d_params_t) :
    (dma2d_rgb565_copy_mono4 E s dp).2.2.hal_log =
      s.hal_log ++
       ([hal_call.HAL_DMA2D_Init ⟨DMA2D_M2M_PFC, DMA2D_OUTPUT_RGB565,
            toU32 ((dp.dst_stride / 2 : Nat) - (dma2d_rgb565_copy_mono4 E s dp).2.1.width)⟩,
        hal_call.HAL_DMA2D_ConfigLayer 1
          ⟨toU32 ((dp.srca_stride * 2 : Nat) - (dma2d_rgb565_copy_mono4 E s dp).2.1.width),
            DMA2D_INPUT_L4, 0, 0⟩]
       ++ (if dp.srca_fg ≠ (s.cache 1).c_fg ∨ dp.srca_bg ≠ (s.cache 1).c_bg
            then [hal_call.HAL_DMA2D_ConfigCLUT 1] else [])
       ++ [hal_call.HAL_DMA2D_Start
            ((dp.srca_row + (dma2d_rgb565_copy_mono4 E s dp).2.1.srca_x / 2) % 4294967296)
            ((dp.dst_row + (dma2d_rgb565_copy_mono4 E s dp).2.1.dst_x * 2) % 4294967296)
            (toU32 (dma2d_rgb565_copy_mono4 E s dp).2.1.width) (toU32 dp.height)]) := by
  obtain ⟨ws1, ws2, -, -, hs, hdp, -, -⟩ := copy_mono4_trim_spec E (dma2d_wait E s) dp
  rw [copy_mono4_unfold]
  simp only
  rw [copy_mono4_engine_log, hs, hdp]
  simp [(dma2d_wait_frame E s).1, (dma2d_wait_frame E s).2.1]

theorem copy_mono4_cache (E : gdc_env) (s : dma2d_state) (dp : dma2d_params_t) :
    (dma2d_rgb565_copy_mono4 E s dp).2.2.cache 1 = ⟨dp.srca_fg, dp.srca_bg⟩ := by
  obtain ⟨ws1, ws2, -, -, -, hdp, -, -⟩ := copy_mono4_trim_spec E (dma2d_wait E s) dp
  rw [copy_mono4_unfold]
  simp only
  rw [copy_mono4_engine_cache, hdp]

theorem clut_calls_copy_mono4 (E : gdc_env) (s : dma2d_state) (dp : dma2d_params_t) :
    clut_calls (hal_calls s (dma2d_rgb565_copy_mono4 E s dp).2.2) =
      if dp.srca_fg ≠ (s.cache 1).c_fg ∨ dp.srca_bg ≠ (s.cache 1).c_bg then 1 else 0 := by
  rw [hal_calls, copy_mono4_hal_log, List.drop_left]
  split <;> simp [clut_calls, List.filter_cons]

/-- For a descriptor with `width ≥ 1` the transfer `copy_mono4` starts is
aligned: the source x-offset left in the descriptor is even, and the width it
passes is even, non-negative and at most the original width. -/
theorem copy_mono4_transfer_aligned (E : gdc_env) (s : dma2d_state) (dp : dma2d_params_t)
    (hw : 1 ≤ dp.width) :
    (dma2d_rgb565_copy_mono4 E s dp).2.1.srca_x % 2 = 0 ∧
    (dma2d_rgb565_copy_mono4 E s dp).2.1.width % 2 = 0 ∧
    0 ≤ (dma2d_rgb565_copy_mono4 E s dp).2.1.width ∧
    (dma2d_rgb565_copy_mono4 E s dp).2.1.width ≤ dp.width := by
  obtain ⟨ws1, ws2, -, -, -, hdp, -, -⟩ := copy_mono4_trim_spec E (dma2d_wait E s) dp
  rw [copy_mono4_unfold]
  simp only
  rw [hdp]
  simp only [width_after_first]
  by_cases hodd : dp.srca_x % 2 = 1
  · simp only [hodd, if_true]
    refine ⟨by omega, ?_, ?_, ?_⟩ <;> split <;> omega
  · simp only [hodd, if_false]
    refine ⟨by omega, ?_, ?_, ?_⟩ <;> split <;> omega

/-! ## `dma2d_rgb565_blend_mono4_rgb565` by stages -/

theorem blend_unfold (E : gdc_env) (s : dma2d_state) (dp : dma2d_params_t) :
    dma2d_rgb565_blend_mono4_rgb565 E s dp =
      (true, (blend_last E (blend_first E ⟨dp, dma2d_wait E s⟩)).dp,
        blend_engine E (blend_last E (blend_first E ⟨dp, dma2d_wait E s⟩)).dp
          (blend_last E (blend_first E ⟨dp, dma2d_wait E s⟩)).s) := by
  have h0 : dma2d_rgb565_blend_mono4_rgb565 E s dp =
      if (blend_last E (blend_first E ⟨dp, dma2d_wait E s⟩)).dp.width > 0 then
        (true, (blend_last E (blend_first E ⟨dp, dma2d_wait E s⟩)).dp,
          blend_engine_start E (blend_last E (blend_first E ⟨dp, dma2d_wait E s⟩)).dp
            (blend_last E (blend_first E ⟨dp, dma2d_wait E s⟩)).s)
      else (true, (blend_last E (blend_first E ⟨dp, dma2d_wait E s⟩)).dp,
          (blend_last E (blend_first E ⟨dp, dma2d_wait E s⟩)).s) := rfl
  rw [h0]
  unfold blend_engine
  split <;> rfl

theorem blend_engine_cpu (E : gdc_env) (dp : dma2d_params_t) (s : dma2d_state) :
    (blend_engine E dp s).cpu_log = s.cpu_log ∧ (blend_engine E dp s).mem = s.mem := by
  unfold blend_engine
  split
  · simp [blend_engine_start, HAL_DMA2D_BlendingStart, HAL_DMA2D_ConfigLayer, HAL_DMA2D_Init]
  · simp

theorem blend_trim_spec (E : gdc_env) (s0 : dma2d_state) (dp : dma2d_params_t) :
    ∃ ws1 ws2 : List (Nat × Nat),
      ws1.length = first_col_stores dp ∧
      ws2.length = (if 0 < width_after_first dp ∧ width_after_first dp % 2 = 1
        then dp.height.toNat else 0) ∧
      (blend_last E (blend_first E ⟨dp, s0⟩)).s =
        { s0 with mem := replay s0.mem (ws1 ++ ws2), cpu_log := s0.cpu_log ++ (ws1 ++ ws2) } ∧
      (blend_last E (blend_first E ⟨dp, s0⟩)).dp =
        { dp with
          dst_x := if dp.srca_x % 2 = 1 then dp.dst_x + 1 else dp.dst_x
          srca_x := if dp.srca_x % 2 = 1 then dp.srca_x + 1 else dp.srca_x
          srcb_x := if dp.srca_x % 2 = 1 then dp.srcb_x + 1 else dp.srcb_x
          width := if 0 < width_after_first dp ∧ width_after_first dp % 2 = 1
            then width_after_first dp - 1 else width_after_first dp } ∧
      (dp.srca_x % 2 = 1 → ∀ r, r < dp.height.toNat → ws1.get? r =
        some (pixel16_addr dp.dst_row dp.dst_stride dp.dst_x r,
          E.gdc_color16_blend_a4 dp.srca_fg
            (E.gdc_color16_to_color (load16 (replay s0.mem (ws1.take r))
              (pixel16_addr dp.srcb_row dp.srcb_stride dp.srcb_x r)))
            (mono4_pixel (replay s0.mem (ws1.take r)) dp.srca_row dp.srca_stride dp.srca_x r))) ∧
      (0 < width_after_first dp ∧ width_after_first dp % 2 = 1 →
        ∀ r, r < dp.height.toNat → ws2.get? r =
        some (pixel16_addr dp.dst_row dp.dst_stride (dp.dst_x + dp.width.toNat - 1) r,
          E.gdc_color16_blend_a4 dp.srca_fg
            (E.gdc_color16_to_color (load16 (replay (replay s0.mem ws1) (ws2.take r))
              (pixel16_addr dp.srcb_row dp.srcb_stride (dp.srcb_x + dp.width.toNat - 1) r)))
            (mono4_pixel (replay (replay s0.mem ws1) (ws2.take r)) dp.srca_row dp.srca_stride
              (dp.srca_x + dp.width.toNat - 1) r))) := by
  by_cases hodd : dp.srca_x % 2 = 1
  · obtain ⟨ws1, hlen1, heq1, hget1⟩ := blend_first_col_spec E dp s0 hodd
    by_cases hlast : 0 < dp.width - 1 ∧ (dp.width - 1) % 2 = 1
    · obtain ⟨ws2, hlen2, heq2, hget2⟩ := blend_last_col_spec E
        { dp with dst_x := dp.dst_x + 1, srca_x := dp.srca_x + 1, srcb_x := dp.srcb_x + 1,
                  width := dp.width - 1 }
        (dma2d_rgb565_blend_mono4_rgb565_first_col E dp s0)
        hlast.1 (by simp only; omega)
      refine ⟨ws1, ws2, ?_, ?_, ?_, ?_, ?_, ?_⟩
      · simp [first_col_stores, hodd, hlen1]
      · simp only [width_after_first, hodd, if_true]
        rw [if_pos hlast]
        exact hlen2
      · simp only [blend_first, blend_last, hodd, if_true, gt_iff_lt]
        rw [if_pos hlast]
        simp only
        rw [heq2, heq1]
        simp [replay_append]
      · simp only [blend_first, blend_last, hodd, if_true, gt_iff_lt, width_after_first]
        rw [if_pos hlast, if_pos hlast]
      · intro _ r hr
        exact hget1 r hr
      · intro _ r hr
        have h2 := hget2 r hr
        simp only at h2
        rw [heq1] at h2
        simp only at h2
        rw [h2]
        have ea : dp.dst_x + 1 + (dp.width - 1).toNat - 1 = dp.dst_x + dp.width.toNat - 1 := by
          omega
        have eb : dp.srca_x + 1 + (dp.width - 1).toNat - 1 = dp.srca_x + dp.width.toNat - 1 := by
          omega
        have ec : dp.srcb_x + 1 + (dp.width - 1).toNat - 1 = dp.srcb_x + dp.width.toNat - 1 := by
          omega
        rw [ea, eb, ec]
    · refine ⟨ws1, [], ?_, ?_, ?_, ?_, ?_, ?_⟩
      · simp [first_col_stores, hodd, hlen1]
      · simp only [width_after_first, hodd, if_true]
        rw [if_neg hlast]
        rfl
      · simp only [blend_first, blend_last, hodd, if_true, gt_iff_lt]
        rw [if_neg hlast]
        simp only
        rw [heq1]
        simp
      · simp only [blend_first, blend_last, hodd, if_true, gt_iff_lt, width_after_first]
        rw [if_neg hlast, if_neg hlast]
      · intro _ r hr
        exact hget1 r hr
      · intro h
        simp only [width_after_first, hodd, if_true] at h
        exact absurd h hlast
  · by_cases hlast : 0 < dp.width ∧ dp.width % 2 = 1
    · obtain ⟨ws2, hlen2, heq2, hget2⟩ := blend_last_col_spec E dp s0 hlast.1 (by omega)
      refine ⟨[], ws2, ?_, ?_, ?_, ?_, ?_, ?_⟩
      · simp [first_col_stores, hodd]
      · simp only [width_after_first, hodd, if_false]
        rw [if_pos hlast]
        exact hlen2
      · simp only [blend_first, blend_last, hodd, if_false, gt_iff_lt]
        rw [if_pos hlast]
        simp only
        rw [heq2]
        simp
      · simp only [blend_first, blend_last, hodd, if_false, gt_iff_lt, width_after_first]
        rw [if_pos hlast, if_pos hlast]
      · intro h
        exact absurd h hodd
      · intro _ r hr
        simpa [replay] using hget2 r hr
    · refine ⟨[], [], ?_, ?_, ?_, ?_, ?_, ?_⟩
      · simp [first_col_stores, hodd]
      · simp only [width_after_first, hodd, if_false]
        rw [if_neg hlast]
        rfl
      · simp only [blend_first, blend_last, hodd, if_false, gt_iff_lt]
        rw [if_neg hlast]
        simp [replay]
      · simp only [blend_first, blend_last, hodd, if_false, gt_iff_lt, width_after_first]
        rw [if_neg hlast, if_neg hlast]
      · intro h
        exact absurd h hodd
      · intro h
        simp only [width_after_first, hodd, if_false] at h
        exact absurd h hlast

theorem blend_cpu_log (E : gdc_env) (s : dma2d_state) (dp : dma2d_params_t) :
    (dma2d_rgb565_blend_mono4_rgb565 E s dp).2.2.cpu_log =
      (blend_last E (blend_first E ⟨dp, dma2d_wait E s⟩)).s.cpu_log := by
  rw [blend_unfold]
  exact (blend_engine_cpu E _ _).1

/-- The boundary columns of `blend_mono4_over_16bit`, for any colour
primitives: the value stored for row `r` is the blend of the foreground over
the background pixel sampled at that column, at the mask value read. -/
theorem blend_boundary_columns (E : gdc_env) (s : dma2d_state) (dp : dma2d_params_t)
    (r : Nat) (hr : r < dp.height.toNat) :
    (dp.srca_x % 2 = 1 →
      (cpu_stores s (dma2d_rgb565_blend_mono4_rgb565 E s dp).2.2).get? r =
        some (pixel16_addr dp.dst_row dp.dst_stride dp.dst_x r,
          E.gdc_color16_blend_a4 dp.srca_fg
            (E.gdc_color16_to_color (load16
              (replay (dma2d_wait E s).mem
                ((cpu_stores s (dma2d_rgb565_blend_mono4_rgb565 E s dp).2.2).take r))
              (pixel16_addr dp.srcb_row dp.srcb_stride dp.srcb_x r)))
            (mono4_pixel
              (replay (dma2d_wait E s).mem
                ((cpu_stores s (dma2d_rgb565_blend_mono4_rgb565 E s dp).2.2).take r))
              dp.srca_row dp.srca_stride dp.srca_x r))) ∧
    (0 < width_after_first dp ∧ width_after_first dp % 2 = 1 →
      (cpu_stores s (dma2d_rgb565_blend_mono4_rgb565 E s dp).2.2).get?
          (first_col_stores dp + r) =
        some (pixel16_addr dp.dst_row dp.dst_stride (dp.dst_x + dp.width.toNat - 1) r,
          E.gdc_color16_blend_a4 dp.srca_fg
            (E.gdc_color16_to_color (load16
              (replay (dma2d_wait E s).mem
                ((cpu_stores s (dma2d_rgb565_blend_mono4_rgb565 E s dp).2.2).take
                  (first_col_stores dp + r)))
              (pixel16_addr dp.srcb_row dp.srcb_stride (dp.srcb_x + dp.width.toNat - 1) r)))
            (mono4_pixel
              (replay (dma2d_wait E s).mem
                ((cpu_stores s (dma2d_rgb565_blend_mono4_rgb565 E s dp).2.2).take
                  (first_col_stores dp + r)))
              dp.srca_row dp.srca_stride (dp.srca_x + dp.width.toNat - 1) r))) := by
  obtain ⟨ws1, ws2, hl1, hl2, hs, -, hf, hl⟩ := blend_trim_spec E (dma2d_wait E s) dp
  have hws : cpu_stores s (dma2d_rgb565_blend_mono4_rgb565 E s dp).2.2 = ws1 ++ ws2 := by
    rw [cpu_stores, blend_cpu_log, hs]
    simp only [dma2d_wait_cpu_log]
    exact List.drop_left _ _
  rw [hws]
  constructor
  · intro hodd
    have hlen : ws1.length = dp.height.toNat := by simp [hl1, first_col_stores, hodd]
    have hr1 : r < ws1.length := by omega
    rw [List.get?_eq_getElem?, List.getElem?_append_left hr1, ← List.get?_eq_getElem?,
      List.take_append_of_le_length (by omega)]
    exact hf hodd r hr
  · intro hlast
    rw [← hl1, List.take_append, replay_append]
    have e : (ws1 ++ ws2).get? (ws1.length + r) = ws2.get? r := by
      rw [List.get?_eq_getElem?, List.getElem?_append_right (by omega), List.get?_eq_getElem?]
      congr 1
      omega
    rw [e]
    exact hl hlast r hr

/-- The blend example evaluated: the first column (mask 15) stores the
foreground `0x07E0`, the last column (mask 0) stores the background sample
`0x5678` found at its column, `srcb_x + width - 1 = 2`. -/
theorem blend_example_stores :
    cpu_stores blend_state
        (dma2d_rgb565_blend_mono4_rgb565 gdc_env.plain.spec16 blend_state blend_dp).2.2 =
      [(0x1000, 0x07E0), (0x1002, 0x5678)] := by
  decide

/-! ## The colour ramp of the spec -/

theorem blend_channel_a4_zero (fg bg : Nat) : blend_channel_a4 fg bg 0 = bg := by
  simp [blend_channel_a4]

theorem blend_channel_a4_full (fg bg : Nat) : blend_channel_a4 fg bg 15 = fg := by
  unfold blend_channel_a4
  have h : (((fg : Int) - (bg : Int)) * ((15 : Nat) : Int)).tdiv 15 = (fg : Int) - (bg : Int) := by
    have : ((15 : Nat) : Int) = 15 := rfl
    rw [this]
    exact Int.mul_tdiv_cancel _ (by decide)
  rw [h]
  omega

theorem gdc_color16_blend_a4_spec_zero (fg bg : Nat) :
    gdc_color16_blend_a4_spec fg bg 0 = bg % 65536 := by
  simp only [gdc_color16_blend_a4_spec, blend_channel_a4_zero]
  omega

theorem gdc_color16_blend_a4_spec_full (fg bg : Nat) :
    gdc_color16_blend_a4_spec fg bg 15 = fg % 65536 := by
  simp only [gdc_color16_blend_a4_spec, blend_channel_a4_full]
  omega

theorem load16_lt (m : Mem) (a : Nat) : load16 m a < 65536 := by
  unfold load16
  omega

theorem load16_of_bytes (m : Mem) (a v : Nat) (h0 : m a = v % 256)
    (h1 : m (a + 1) = v / 256 % 256) : load16 m a = v % 65536 := by
  unfold load16
  rw [h0, h1]
  omega

theorem toU32_of_lt (x : Int) (h0 : 0 ≤ x) (h1 : x < 4294967296) : toU32 x = x.toNat := by
  unfold toU32
  rw [Int.emod_eq_of_lt h0 h1]

/-! ## The engine model -/

theorem stream_frame {ι : Type} (addr : ι → Nat) (px : Mem → ι → Nat) :
    ∀ (js : List ι) (m : Mem) (a : Nat),
      (∀ j ∈ js, a ≠ addr j ∧ a ≠ addr j + 1) → stream addr px js m a = m a := by
  intro js
  induction js with
  | nil => intro m a _; rfl
  | cons i rest ih =>
    intro m a h
    have hi := h i (List.mem_cons_self _ _)
    show stream addr px rest (store16 m (addr i) (px m i)) a = m a
    rw [ih _ a (fun j hj => h j (List.mem_cons_of_mem _ hj))]
    simp [store16, hi.1, hi.2]

theorem stream_value {ι : Type} (addr : ι → Nat) (px : Mem → ι → Nat) :
    ∀ (js : List ι) (m : Mem), js.Nodup →
      (∀ i ∈ js, ∀ j ∈ js, i ≠ j →
        addr i ≠ addr j ∧ addr i ≠ addr j + 1 ∧ addr i + 1 ≠ addr j) →
      (∀ j ∈ js, ∀ m' : Mem,
        (∀ a, (∀ i ∈ js, a ≠ addr i ∧ a ≠ addr i + 1) → m' a = m a) → px m' j = px m j) →
      ∀ j ∈ js, stream addr px js m (addr j) = px m j % 256 ∧
        stream addr px js m (addr j + 1) = px m j / 256 % 256 := by
  intro js
  induction js with
  | nil => intro m _ _ _ j hj; cases hj
  | cons i rest ih =>
    intro m hnd hdisj hpx j hj
    have hnd' := List.nodup_cons.mp hnd
    have hstep : stream addr px (i :: rest) m =
        stream addr px rest (store16 m (addr i) (px m i)) := rfl
    rw [hstep]
    have hm1 : ∀ a, (∀ k ∈ i :: rest, a ≠ addr k ∧ a ≠ addr k + 1) →
        store16 m (addr i) (px m i) a = m a := by
      intro a ha
      have := ha i (List.mem_cons_self _ _)
      simp [store16, this.1, this.2]
    rcases List.mem_cons.mp hj with rfl | hjr
    · have hne : ∀ k ∈ rest, j ≠ k := fun k hk e => hnd'.1 (e ▸ hk)
      constructor
      · rw [stream_frame addr px rest _ (addr j)]
        · simp [store16]
        · intro k hk
          have := hdisj j (List.mem_cons_self _ _) k (List.mem_cons_of_mem _ hk) (hne k hk)
          exact ⟨this.1, this.2.1⟩
      · rw [stream_frame addr px rest _ (addr j + 1)]
        · simp [store16]
        · intro k hk
          have := hdisj j (List.mem_cons_self _ _) k (List.mem_cons_of_mem _ hk) (hne k hk)
          exact ⟨this.2.2, by omega⟩
    · have hpx1 : px (store16 m (addr i) (px m i)) j = px m j :=
        hpx j hj _ hm1
      have := ih (store16 m (addr i) (px m i)) hnd'.2
        (fun a ha b hb hab =>
          hdisj a (List.mem_cons_of_mem _ ha) b (List.mem_cons_of_mem _ hb) hab)
        (fun k hk m' hm' => by
          have e1 : px m' k = px m k := by
            apply hpx k (List.mem_cons_of_mem _ hk)
            intro a ha
            rw [hm' a (fun l hl => ha l (List.mem_cons_of_mem _ hl))]
            exact hm1 a ha
          have e2 : px (store16 m (addr i) (px m i)) k = px m k :=
            hpx k (List.mem_cons_of_mem _ hk) _ hm1
          rw [e1, e2])
        j hjr
      rw [hpx1] at this
      exact this

theorem mem_engine_cells (t : dma2d_transfer) (c : Nat × Nat) :
    c ∈ dma2d_engine_cells t ↔ c.1 < t.height ∧ c.2 < t.width := by
  obtain ⟨r, k⟩ := c
  simp only [dma2d_engine_cells, List.mem_flatMap, List.mem_range, List.mem_map, Prod.mk.injEq]
  constructor
  · rintro ⟨r', hr', k', hk', rfl, rfl⟩
    exact ⟨hr', hk'⟩
  · rintro ⟨hr, hk⟩
    exact ⟨r, hr, k, hk, rfl, rfl⟩

theorem nodup_engine_cells (t : dma2d_transfer) : (dma2d_engine_cells t).Nodup := by
  unfold dma2d_engine_cells
  rw [List.nodup_flatMap]
  constructor
  · intro r _
    exact (List.nodup_range _).map (fun a b h => by simpa using h)
  · refine (List.nodup_range _).pairwise_of_forall_ne ?_
    intro r _ r' _ hne
    simp only [Function.onFun, List.disjoint_left, List.mem_map, List.mem_range]
    rintro ⟨a, b⟩ ⟨k, _, h1⟩ ⟨k', _, h2⟩
    simp only [Prod.mk.injEq] at h1 h2
    exact hne (h1.1.trans h2.1.symm)

theorem engine_run_eq_stream (E : gdc_env) (clut : Nat → Nat) (t : dma2d_transfer) (m : Mem) :
    dma2d_engine_run E clut t m =
      stream (fun c : Nat × Nat => dma2d_engine_dst t c.1 c.2)
        (fun m c => dma2d_engine_pixel E clut t m c.1 c.2) (dma2d_engine_cells t) m := rfl

theorem cell_index_inj (P w r k r' k' : Nat) (hP : w ≤ P) (hk : k < w) (hk' : k' < w)
    (h : r * P + k = r' * P + k') : r = r' ∧ k = k' := by
  rcases Nat.lt_trichotomy r r' with hlt | heq | hgt
  · exfalso
    have h1 : (r + 1) * P ≤ r' * P := Nat.mul_le_mul_right _ hlt
    rw [Nat.succ_mul] at h1
    omega
  · subst heq
    exact ⟨rfl, by omega⟩
  · exfalso
    have h1 : (r' + 1) * P ≤ r * P := Nat.mul_le_mul_right _ hgt
    rw [Nat.succ_mul] at h1
    omega

theorem engine_dst_disjoint (t : dma2d_transfer) (c d : Nat × Nat)
    (hc : c ∈ dma2d_engine_cells t) (hd : d ∈ dma2d_engine_cells t) (hne : c ≠ d) :
    dma2d_engine_dst t c.1 c.2 ≠ dma2d_engine_dst t d.1 d.2 ∧
    dma2d_engine_dst t c.1 c.2 ≠ dma2d_engine_dst t d.1 d.2 + 1 ∧
    dma2d_engine_dst t c.1 c.2 + 1 ≠ dma2d_engine_dst t d.1 d.2 := by
  obtain ⟨r, k⟩ := c
  obtain ⟨r', k'⟩ := d
  rw [mem_engine_cells] at hc hd
  simp only at hc hd
  simp only [dma2d_engine_dst]
  have key : r * (t.width + t.handle.Init.OutputOffset) + k ≠
      r' * (t.width + t.handle.Init.OutputOffset) + k' := by
    intro h
    have := cell_index_inj _ t.width r k r' k' (Nat.le_add_right _ _) hc.2 hd.2 h
    exact hne (by rw [this.1, this.2])
  omega

/-- What a transfer leaves in memory, when the pixel it produces for a cell
does not depend on the bytes it writes: every destination pixel holds the pixel
produced from the initial memory, every other byte is unchanged. -/
theorem engine_run_spec (E : gdc_env) (clut : Nat → Nat) (t : dma2d_transfer) (m : Mem)
    (hpx : ∀ c ∈ dma2d_engine_cells t, ∀ m' : Mem,
      (∀ a, (∀ d ∈ dma2d_engine_cells t,
          a ≠ dma2d_engine_dst t d.1 d.2 ∧ a ≠ dma2d_engine_dst t d.1 d.2 + 1) → m' a = m a) →
      dma2d_engine_pixel E clut t m' c.1 c.2 = dma2d_engine_pixel E clut t m c.1 c.2) :
    (∀ r k, r < t.height → k < t.width →
      dma2d_engine_run E clut t m (dma2d_engine_dst t r k) =
          dma2d_engine_pixel E clut t m r k % 256 ∧
      dma2d_engine_run E clut t m (dma2d_engine_dst t r k + 1) =
          dma2d_engine_pixel E clut t m r k / 256 % 256) ∧
    (∀ a, (∀ r k, r < t.height → k < t.width →
        a ≠ dma2d_engine_dst t r k ∧ a ≠ dma2d_engine_dst t r k + 1) →
      dma2d_engine_run E clut t m a = m a) := by
  constructor
  · intro r k hr hk
    rw [engine_run_eq_stream]
    exact stream_value (fun c : Nat × Nat => dma2d_engine_dst t c.1 c.2)
      (fun m c => dma2d_engine_pixel E clut t m c.1 c.2) (dma2d_engine_cells t) m
      (nodup_engine_cells t) (fun c hc d hd hne => engine_dst_disjoint t c d hc hd hne)
      hpx (r, k) ((mem_engine_cells t (r, k)).mpr ⟨hr, hk⟩)
  · intro a ha
    rw [engine_run_eq_stream]
    apply stream_frame
    intro c hc
    have := (mem_engine_cells t c).mp hc
    exact ha c.1 c.2 this.1 this.2

theorem engine_run_no_cells (E : gdc_env) (clut : Nat → Nat) (t : dma2d_transfer) (m : Mem)
    (h : t.width = 0 ∨ t.height = 0) : dma2d_engine_run E clut t m = m := by
  have : dma2d_engine_cells t = [] := by
    rcases h with h | h
    · simp [dma2d_engine_cells, h]
    · simp [dma2d_engine_cells, h]
  simp [dma2d_engine_run, this]

/-- Running a 16-bit copy transfer a second time changes nothing, when no
source pixel it reads shares a byte with a destination pixel it writes. -/
theorem engine_copy16_idempotent (E : gdc_env) (c1 c2 : Nat → Nat) (t : dma2d_transfer)
    (m : Mem) (src : Nat → Nat → Nat)
    (hpix : ∀ (m' : Mem) (cl : Nat → Nat) (r k : Nat),
      dma2d_engine_pixel E cl t m' r k = load16 m' (src r k))
    (hdisj : ∀ r k r' k', r < t.height → k < t.width → r' < t.height → k' < t.width →
      src r k ≠ dma2d_engine_dst t r' k' ∧ src r k ≠ dma2d_engine_dst t r' k' + 1 ∧
      src r k + 1 ≠ dma2d_engine_dst t r' k') :
    dma2d_engine_run E c2 t (dma2d_engine_run E c1 t m) = dma2d_engine_run E c1 t m := by
  have hstable : ∀ (m0 m' : Mem) (r k : Nat), r < t.height → k < t.width →
      (∀ a, (∀ d ∈ dma2d_engine_cells t,
          a ≠ dma2d_engine_dst t d.1 d.2 ∧ a ≠ dma2d_engine_dst t d.1 d.2 + 1) → m' a = m0 a) →
      load16 m' (src r k) = load16 m0 (src r k) := by
    intro m0 m' r k hr hk hm'
    unfold load16
    rw [hm' (src r k), hm' (src r k + 1)]
    · intro d hd
      have hd' := (mem_engine_cells t d).mp hd
      have := hdisj r k d.1 d.2 hr hk hd'.1 hd'.2
      exact ⟨this.2.2, by omega⟩
    · intro d hd
      have hd' := (mem_engine_cells t d).mp hd
      have := hdisj r k d.1 d.2 hr hk hd'.1 hd'.2
      exact ⟨this.1, this.2.1⟩
  have hpx : ∀ (cl : Nat → Nat) (m0 : Mem), ∀ c ∈ dma2d_engine_cells t, ∀ m' : Mem,
      (∀ a, (∀ d ∈ dma2d_engine_cells t,
          a ≠ dma2d_engine_dst t d.1 d.2 ∧ a ≠ dma2d_engine_dst t d.1 d.2 + 1) → m' a = m0 a) →
      dma2d_engine_pixel E cl t m' c.1 c.2 = dma2d_engine_pixel E cl t m0 c.1 c.2 := by
    intro cl m0 c hc m' hm'
    have hc' := (mem_engine_cells t c).mp hc
    rw [hpix, hpix]
    exact hstable m0 m' c.1 c.2 hc'.1 hc'.2 hm'
  obtain ⟨hv1, hf1⟩ := engine_run_spec E c1 t m (hpx c1 m)
  obtain ⟨hv2, hf2⟩ := engine_run_spec E c2 t (dma2d_engine_run E c1 t m)
    (hpx c2 (dma2d_engine_run E c1 t m))
  have hsame : ∀ r k, r < t.height → k < t.width →
      dma2d_engine_pixel E c2 t (dma2d_engine_run E c1 t m) r k =
        dma2d_engine_pixel E c1 t m r k := by
    intro r k hr hk
    rw [hpix, hpix]
    apply hstable m _ r k hr hk
    intro a ha
    apply hf1
    intro r' k' hr' hk'
    exact ha (r', k') ((mem_engine_cells t (r', k')).mpr ⟨hr', hk'⟩)
  funext a
  by_cases hcell : ∃ r k, r < t.height ∧ k < t.width ∧
      (a = dma2d_engine_dst t r k ∨ a = dma2d_engine_dst t r k + 1)
  · obtain ⟨r, k, hr, hk, ha⟩ := hcell
    rcases ha with rfl | rfl
    · rw [(hv2 r k hr hk).1, (hv1 r k hr hk).1, hsame r k hr hk]
    · rw [(hv2 r k hr hk).2, (hv1 r k hr hk).2, hsame r k hr hk]
  · apply hf2
    intro r k hr hk
    constructor
    · intro h
      exact hcell ⟨r, k, hr, hk, Or.inl h⟩
    · intro h
      exact hcell ⟨r, k, hr, hk, Or.inr h⟩

/-- The transfer `dma2d_rgb565_fill` leaves pending. -/
theorem fill_pending (E : gdc_env) (s : dma2d_state) (dp : dma2d_params_t) :
    (dma2d_rgb565_fill E s dp).2.2.pending =
      some ⟨{ (dma2d_wait E s).dma2d_handle with
          Init := ⟨DMA2D_R2M, DMA2D_OUTPUT_RGB565, toU32 ((dp.dst_stride / 2 : Nat) - dp.width)⟩ },
        E.gdc_color_to_color32 dp.srca_fg % 4294967296, 0,
        (dp.dst_row + dp.dst_x * 2) % 4294967296, toU32 dp.width, toU32 dp.height⟩ := rfl

/-- The transfer `dma2d_rgb565_copy_rgb565` leaves pending. -/
theorem copy_rgb565_pending (E : gdc_env) (s : dma2d_state) (dp : dma2d_params_t) :
    (dma2d_rgb565_copy_rgb565 E s dp).2.2.pending =
      some ⟨{ (dma2d_wait E s).dma2d_handle with
          Init := ⟨DMA2D_M2M_PFC, DMA2D_OUTPUT_RGB565,
            toU32 ((dp.dst_stride / 2 : Nat) - dp.width)⟩
          LayerCfg1 := ⟨toU32 ((dp.srca_stride / 2 : Nat) - dp.width),
            DMA2D_INPUT_RGB565, 0, 0⟩ },
        (dp.srca_row + dp.srca_x * 2) % 4294967296, 0,
        (dp.dst_row + dp.dst_x * 2) % 4294967296, toU32 dp.width, toU32 dp.height⟩ := rfl

theorem copy_rgb565_pending_again (E : gdc_env) (s : dma2d_state) (dp : dma2d_params_t) :
    (dma2d_rgb565_copy_rgb565 E (dma2d_rgb565_copy_rgb565 E s dp).2.2 dp).2.2.pending =
      (dma2d_rgb565_copy_rgb565 E s dp).2.2.pending := by
  rw [copy_rgb565_pending, copy_rgb565_pending, (dma2d_wait_frame E _).2.2.1]
  rfl

/-! ## The columns of a blend call -/

theorem config_clut_loop_spec (E : gdc_env) (fg bg : Nat) :
    ∀ (steps : List Nat) (clut : Nat → Nat) (i : Nat),
      dma2d_config_clut_loop E fg bg steps clut i =
        if i ∈ steps then E.gdc_color32_blend_a4 fg bg i % 4294967296 else clut i := by
  intro steps
  induction steps with
  | nil => intro clut i; simp [dma2d_config_clut_loop]
  | cons step rest ih =>
    intro clut i
    rw [dma2d_config_clut_loop, ih]
    by_cases hr : i ∈ rest
    · simp [hr]
    · by_cases hs : i = step
      · subst hs
        simp [hr]
      · simp [hr, hs, Function.update_noteq hs]

/-- `dma2d_config_clut` on a valid layer, case by case: when the pair differs
from the cached pair the cache entry is updated, the 16 entries of the layer's
table are written and one programming call is made; when it equals the cached
pair nothing at all is done. -/
theorem config_clut_spec (E : gdc_env) (s : dma2d_state) (layer fg bg : Nat)
    (hl : layer < LAYER_COUNT) :
    (dma2d_config_clut E s layer fg bg).cache layer = ⟨fg, bg⟩ ∧
    (fg ≠ (s.cache layer).c_fg ∨ bg ≠ (s.cache layer).c_bg →
      clut_holds E (dma2d_config_clut E s layer fg bg) layer fg bg ∧
      hal_calls s (dma2d_config_clut E s layer fg bg) = [hal_call.HAL_DMA2D_ConfigCLUT layer]) ∧
    (¬ (fg ≠ (s.cache layer).c_fg ∨ bg ≠ (s.cache layer).c_bg) →
      dma2d_config_clut E s layer fg bg = s) := by
  have hge : ¬ layer ≥ LAYER_COUNT := by omega
  refine ⟨?_, ?_, ?_⟩
  · unfold dma2d_config_clut
    rw [if_neg hge]
    split
    · by_cases h0 : layer ≠ 0
      · simp [h0, HAL_DMA2D_ConfigCLUT]
      · simp [h0, HAL_DMA2D_ConfigCLUT]
    · rename_i h
      simp only [not_or, not_not] at h
      rw [h.1, h.2]
  · intro hne
    unfold dma2d_config_clut
    rw [if_neg hge, if_pos hne]
    constructor
    · intro i hi
      have hmem : i ∈ List.range GRADIENT_STEPS := List.mem_range.mpr hi
      by_cases h0 : layer ≠ 0
      · simp [clut_of, h0, HAL_DMA2D_ConfigCLUT, config_clut_loop_spec, hmem]
      · simp [clut_of, h0, HAL_DMA2D_ConfigCLUT, config_clut_loop_spec, hmem]
    · by_cases h0 : layer ≠ 0
      · simp [hal_calls, h0, HAL_DMA2D_ConfigCLUT]
      · simp [hal_calls, h0, HAL_DMA2D_ConfigCLUT]
  · intro heq
    unfold dma2d_config_clut
    rw [if_neg hge, if_neg heq]

/-- `dma2d_config_clut` leaves the cache entry and the table of the other layer
alone. -/
theorem config_clut_other (E : gdc_env) (s : dma2d_state) (layer other fg bg : Nat)
    (ho : other < LAYER_COUNT) (hne : other ≠ layer) :
    (dma2d_config_clut E s layer fg bg).cache other = s.cache other ∧
    clut_of (dma2d_config_clut E s layer fg bg) other = clut_of s other := by
  unfold dma2d_config_clut
  split
  · exact ⟨rfl, rfl⟩
  · rename_i hl
    have hl2 : layer < 2 := by simp only [LAYER_COUNT] at hl; omega
    have ho2 : other < 2 := ho
    split
    · by_cases h0 : layer ≠ 0
      · have : other = 0 := by omega
        subst this
        simp [clut_of, h0, HAL_DMA2D_ConfigCLUT, Function.update_noteq hne]
      · have hz : layer = 0 := not_not.mp h0
        have : other ≠ 0 := by omega
        simp [clut_of, h0, this, HAL_DMA2D_ConfigCLUT, Function.update_noteq hne]
    · exact ⟨rfl, rfl⟩

theorem clut_cache_inv_congr (E : gdc_env) (s s' : dma2d_state)
    (hc : s'.cache = s.cache) (hf : s'.FGCLUT = s.FGCLUT) (hb : s'.BGCLUT = s.BGCLUT)
    (h : clut_cache_inv E s) : clut_cache_inv E s' := by
  intro layer hl
  have := h layer hl
  simp only [clut_holds, clut_of, hc, hf, hb] at this ⊢
  exact this

theorem clut_cache_inv_config_clut (E : gdc_env) (s : dma2d_state) (layer fg bg : Nat)
    (h : clut_cache_inv E s) : clut_cache_inv E (dma2d_config_clut E s layer fg bg) := by
  by_cases hl : layer < LAYER_COUNT
  · obtain ⟨hcache, hprog, hskip⟩ := config_clut_spec E s layer fg bg hl
    by_cases hne : fg ≠ (s.cache layer).c_fg ∨ bg ≠ (s.cache layer).c_bg
    · intro other ho
      by_cases hol : other = layer
      · subst hol
        right
        rw [hcache]
        exact (hprog hne).1
      · obtain ⟨hc, ht⟩ := config_clut_other E s layer other fg bg ho hol
        rcases h other ho with h0 | hh
        · left; rw [hc]; exact h0
        · right
          intro i hi
          rw [ht, hc]
          exact hh i hi
    · rw [hskip hne]
      exact h
  · have : dma2d_config_clut E s layer fg bg = s := by
      unfold dma2d_config_clut
      rw [if_pos (by omega)]
    rw [this]
    exact h

theorem copy_mono4_engine_clut_inv (E : gdc_env) (dp : dma2d_params_t) (s : dma2d_state)
    (h : clut_cache_inv E s) : clut_cache_inv E (copy_mono4_engine E dp s) := by
  unfold copy_mono4_engine
  refine clut_cache_inv_congr E _ _ rfl rfl rfl
    (clut_cache_inv_config_clut E _ 1 dp.srca_fg dp.srca_bg ?_)
  exact clut_cache_inv_congr E s _ rfl rfl rfl h

theorem blend_engine_clut_inv (E : gdc_env) (dp : dma2d_params_t) (s : dma2d_state)
    (h : clut_cache_inv E s) : clut_cache_inv E (blend_engine E dp s) := by
  unfold blend_engine
  split
  · exact clut_cache_inv_congr E s _ rfl rfl rfl h
  · exact h

theorem dma2d_wait_clut_inv (E : gdc_env) (s : dma2d_state)
    (h : clut_cache_inv E s) : clut_cache_inv E (dma2d_wait E s) :=
  clut_cache_inv_congr E s _ (dma2d_wait_frame E s).2.1 (dma2d_wait_frame E s).2.2.2.1
    (dma2d_wait_frame E s).2.2.2.2 h

/-- Every entry point keeps the promise of the lookup-table cache. -/
theorem dma2d_run_op_clut_inv (E : gdc_env) (s : dma2d_state) (op : dma2d_op)
    (h : clut_cache_inv E s) : clut_cache_inv E (dma2d_run_op E s op) := by
  have hw := dma2d_wait_clut_inv E s h
  cases op with
  | fill dp => exact clut_cache_inv_congr E (dma2d_wait E s) _ rfl rfl rfl hw
  | copy_rgb565 dp => exact clut_cache_inv_congr E (dma2d_wait E s) _ rfl rfl rfl hw
  | blend_mono4_mono4 dp => exact hw
  | copy_mono4 dp =>
    obtain ⟨ws1, ws2, -, -, hs, -, -, -⟩ := copy_mono4_trim_spec E (dma2d_wait E s) dp
    simp only [dma2d_run_op]
    rw [copy_mono4_unfold]
    simp only
    apply copy_mono4_engine_clut_inv
    rw [hs]
    exact clut_cache_inv_congr E (dma2d_wait E s) _ rfl rfl rfl hw
  | blend_mono4_rgb565 dp =>
    obtain ⟨ws1, ws2, -, -, hs, -, -, -⟩ := blend_trim_spec E (dma2d_wait E s) dp
    simp only [dma2d_run_op]
    rw [blend_unfold]
    simp only
    apply blend_engine_clut_inv
    rw [hs]
    exact clut_cache_inv_congr E (dma2d_wait E s) _ rfl rfl rfl hw

theorem dma2d_run_clut_inv (E : gdc_env) (ops : List dma2d_op) :
    ∀ s, clut_cache_inv E s → clut_cache_inv E (dma2d_run E s ops) := by
  induction ops with
  | nil => intro s h; exact h
  | cons op rest ih =>
    intro s h
    exact ih _ (dma2d_run_op_clut_inv E s op h)

/-- At process start the promise of the cache holds: both cached pairs are the
zero pair. -/
theorem dma2d_state_start_clut_inv (E : gdc_env) (m : Mem) (fgclut bgclut : Nat → Nat) :
    clut_cache_inv E (dma2d_state_start m fgclut bgclut) :=
  fun _ _ => Or.inl rfl

/-- In every state reached from process start, `dma2d_config_clut` on a valid
layer with a pair other than the zero pair leaves the cache entry equal to the
pair and the hardware table of the layer holding its 16 blends. -/
theorem config_clut_holds_of_nonzero_pair (E : gdc_env) (m : Mem) (fgclut bgclut : Nat → Nat)
    (ops : List dma2d_op) (layer fg bg : Nat) (hl : layer < LAYER_COUNT)
    (hne : fg ≠ 0 ∨ bg ≠ 0) :
    (dma2d_config_clut E (dma2d_run E (dma2d_state_start m fgclut bgclut) ops)
      layer fg bg).cache layer = ⟨fg, bg⟩ ∧
    clut_holds E (dma2d_config_clut E (dma2d_run E (dma2d_state_start m fgclut bgclut) ops)
      layer fg bg) layer fg bg := by
  have hinv := dma2d_run_clut_inv E ops _ (dma2d_state_start_clut_inv E m fgclut bgclut)
  obtain ⟨hcache, hprog, hskip⟩ := config_clut_spec E
    (dma2d_run E (dma2d_state_start m fgclut bgclut) ops) layer fg bg hl
  refine ⟨hcache, ?_⟩
  by_cases hd : fg ≠ ((dma2d_run E (dma2d_state_start m fgclut bgclut) ops).cache layer).c_fg ∨
      bg ≠ ((dma2d_run E (dma2d_state_start m fgclut bgclut) ops).cache layer).c_bg
  · exact (hprog hd).1
  · rw [hskip hd]
    simp only [not_or, not_not] at hd
    rcases hinv layer hl with h0 | hh
    · rw [h0] at hd
      simp only at hd
      omega
    · rw [← hd.1, ← hd.2] at hh
      exact hh

/-- A pair equal to the cached pair: `dma2d_config_clut` does nothing. -/
theorem config_clut_cached (E : gdc_env) (s : dma2d_state) (layer fg bg : Nat)
    (hfg : fg = (s.cache layer).c_fg) (hbg : bg = (s.cache layer).c_bg) :
    dma2d_config_clut E s layer fg bg = s := by
  unfold dma2d_config_clut
  split
  · rfl
  · rw [if_neg]
    simp only [not_or, not_not]
    exact ⟨hfg, hbg⟩

/-- When the pair of the descriptor equals the cached pair of layer 1,
`dma2d_rgb565_copy_mono4` makes no programming call and leaves the hardware
tables and the cache as they were. -/
theorem copy_mono4_clut_skip (E : gdc_env) (s : dma2d_state) (dp : dma2d_params_t)
    (hfg : dp.srca_fg = (s.cache 1).c_fg) (hbg : dp.srca_bg = (s.cache 1).c_bg) :
    clut_calls (hal_calls s (dma2d_rgb565_copy_mono4 E s dp).2.2) = 0 ∧
    (dma2d_rgb565_copy_mono4 E s dp).2.2.FGCLUT = s.FGCLUT ∧
    (dma2d_rgb565_copy_mono4 E s dp).2.2.BGCLUT = s.BGCLUT ∧
    (dma2d_rgb565_copy_mono4 E s dp).2.2.cache = s.cache := by
  obtain ⟨ws1, ws2, -, -, hs, hdp, -, -⟩ := copy_mono4_trim_spec E (dma2d_wait E s) dp
  obtain ⟨-, hc, -, hf, hb⟩ := dma2d_wait_frame E s
  refine ⟨?_, ?_⟩
  · rw [clut_calls_copy_mono4, if_neg]
    simp only [not_or, not_not]
    exact ⟨hfg, hbg⟩
  · rw [copy_mono4_unfold]
    simp only
    rw [hs, hdp]
    unfold copy_mono4_engine
    simp only [HAL_DMA2D_Start]
    rw [config_clut_cached]
    · exact ⟨hf, hb, hc⟩
    · simp only [HAL_DMA2D_ConfigLayer, HAL_DMA2D_Init, hc]
      exact hfg
    · simp only [HAL_DMA2D_ConfigLayer, HAL_DMA2D_Init, hc]
      exact hbg

/-! ## The claims -/

/-- C1 (counterexample). In the concrete scenario (with white over black) the
code does none of the three things the claim states: the CPU store for pixel 0
is not the table entry of value `0xF`, the only transfer start is not the one
of width 3 from source index 2, and there is no CPU store for pixel 4. -/
theorem copy_mono4_scenario_counterexample :
    (dma2d_rgb565_copy_mono4 gdc_env.plain scenario_state
        (scenario_dp 0xFFFF 0)).2.2.cpu_log.get? 0 ≠
      some (pixel16_addr 0x1000 16 0 0, gdc_env.plain.gdc_color16_gradient_a4 0xFFFF 0 0xF) ∧
    start_calls (dma2d_rgb565_copy_mono4 gdc_env.plain scenario_state
        (scenario_dp 0xFFFF 0)).2.2.hal_log ≠
      [hal_call.HAL_DMA2D_Start (0x2000 + 2 / 2) (pixel16_addr 0x1000 16 1 0) 3 1] ∧
    (dma2d_rgb565_copy_mono4 gdc_env.plain scenario_state
        (scenario_dp 0xFFFF 0)).2.2.cpu_log.get? 1 ≠
      some (pixel16_addr 0x1000 16 4 0, gdc_env.plain.gdc_color16_gradient_a4 0xFFFF 0 0x4) := by
  decide

/-- C1 (amended). In the concrete scenario, for every environment and colour
pair, `copy_mono4` makes a single CPU store: destination pixel 0 gets the table
entry of the high nibble of source byte 0, which is `0x1`; it then starts one
transfer of width 4 and height 1 from source byte 1 (source indices 2..5) to
destination pixels 1..4; no last column is drawn on the CPU. -/
theorem copy_mono4_scenario (E : gdc_env) (fg bg : Nat) :
    (dma2d_rgb565_copy_mono4 E scenario_state (scenario_dp fg bg)).2.2.cpu_log =
      [(pixel16_addr 0x1000 16 0 0,
        E.gdc_color16_gradient_a4 fg bg (mono4_pixel scenario_state.mem 0x2000 4 1 0))] ∧
    mono4_pixel scenario_state.mem 0x2000 4 1 0 = load8 scenario_state.mem 0x2000 / 16 ∧
    load8 scenario_state.mem 0x2000 / 16 = 0x1 ∧
    start_calls (dma2d_rgb565_copy_mono4 E scenario_state (scenario_dp fg bg)).2.2.hal_log =
      [hal_call.HAL_DMA2D_Start (0x2000 + 2 / 2) (pixel16_addr 0x1000 16 1 0) 4 1] := by
  refine ⟨?_, by decide, by decide, ?_⟩
  · rw [copy_mono4_cpu_log]
    rfl
  · rw [copy_mono4_hal_log]
    have hdp : (dma2d_rgb565_copy_mono4 E scenario_state (scenario_dp fg bg)).2.1 =
        { scenario_dp fg bg with dst_x := 1, srca_x := 2, width := 4 } := rfl
    rw [hdp]
    simp only [start_calls, List.filter_append]
    split <;> rfl

/-- C2 (failing input). With `srca_x = 1` and `width = 1` the first column is
drawn on the CPU and the width left is zero, yet the engine is initialised,
layer 1 configured, the lookup table programmed and a transfer of width 0
started. -/
theorem copy_mono4_zero_width_programs_engine :
    (dma2d_rgb565_copy_mono4 gdc_env.plain scenario_state
        { scenario_dp 0xFFFF 0 with width := 1 }).2.1.width = 0 ∧
    (dma2d_rgb565_copy_mono4 gdc_env.plain scenario_state
        { scenario_dp 0xFFFF 0 with width := 1 }).2.2.hal_log =
      [hal_call.HAL_DMA2D_Init ⟨DMA2D_M2M_PFC, DMA2D_OUTPUT_RGB565, 8⟩,
       hal_call.HAL_DMA2D_ConfigLayer 1 ⟨8, DMA2D_INPUT_L4, 0, 0⟩,
       hal_call.HAL_DMA2D_ConfigCLUT 1,
       hal_call.HAL_DMA2D_Start 0x2001 0x1002 0 1] := by
  decide

/-- C3 (counterexample). For the two-column descriptor over the source bytes
`0x1F, 0x23` the spec's packing gives the values `0xF` (index 1) and `0x2`
(index 2), but neither CPU store writes the table entry of that value. -/
theorem copy_mono4_spec_packing_counterexample :
    (cpu_stores scenario_state
        (dma2d_rgb565_copy_mono4 gdc_env.plain scenario_state two_column_dp).2.2).get? 0 ≠
      some (pixel16_addr 0x1000 16 0 0,
        gdc_env.plain.gdc_color16_gradient_a4 0xFFFF 0
          (mono4_pixel_spec scenario_state.mem 0x2000 4 1 0)) ∧
    (cpu_stores scenario_state
        (dma2d_rgb565_copy_mono4 gdc_env.plain scenario_state two_column_dp).2.2).get? 1 ≠
      some (pixel16_addr 0x1000 16 1 0,
        gdc_env.plain.gdc_color16_gradient_a4 0xFFFF 0
          (mono4_pixel_spec scenario_state.mem 0x2000 4 2 0)) := by
  decide

/-- C3 (amended). For every `copy_mono4` call and every row `r < height`: when
`srca_x` is odd, the `r`-th CPU store of the call writes, at destination pixel
`(dst_x, r)`, the table entry `T[v]` of the source pixel with index `srca_x` in
row `r`; when the width left after that is positive and odd, the store number
`first_col_stores + r` writes, at destination pixel `(dst_x + width - 1, r)`,
the entry of the source pixel with index `srca_x + width - 1`.  Here `T` is the
16-entry blend table of `(fg, bg)` and `v` is read from memory as it stands at
that store, from byte `i / 2` of the row: the HIGH nibble when the pixel index
`i` is odd, the LOW nibble when it is even. -/
theorem copy_mono4_boundary_columns (E : gdc_env) (s : dma2d_state) (dp : dma2d_params_t)
    (r : Nat) (hr : r < dp.height.toNat) :
    (dp.srca_x % 2 = 1 →
      (cpu_stores s (dma2d_rgb565_copy_mono4 E s dp).2.2).get? r =
        some (pixel16_addr dp.dst_row dp.dst_stride dp.dst_x r,
          E.gdc_color16_gradient_a4 dp.srca_fg dp.srca_bg
            (mono4_pixel
              (replay (dma2d_wait E s).mem
                ((cpu_stores s (dma2d_rgb565_copy_mono4 E s dp).2.2).take r))
              dp.srca_row dp.srca_stride dp.srca_x r))) ∧
    (0 < width_after_first dp ∧ width_after_first dp % 2 = 1 →
      (cpu_stores s (dma2d_rgb565_copy_mono4 E s dp).2.2).get? (first_col_stores dp + r) =
        some (pixel16_addr dp.dst_row dp.dst_stride (dp.dst_x + dp.width.toNat - 1) r,
          E.gdc_color16_gradient_a4 dp.srca_fg dp.srca_bg
            (mono4_pixel
              (replay (dma2d_wait E s).mem
                ((cpu_stores s (dma2d_rgb565_copy_mono4 E s dp).2.2).take
                  (first_col_stores dp + r)))
              dp.srca_row dp.srca_stride (dp.srca_x + dp.width.toNat - 1) r))) := by
  obtain ⟨ws1, ws2, hl1, hl2, hs, -, hf, hl⟩ := copy_mono4_trim_spec E (dma2d_wait E s) dp
  have hws : cpu_stores s (dma2d_rgb565_copy_mono4 E s dp).2.2 = ws1 ++ ws2 := by
    rw [cpu_stores, copy_mono4_cpu_log, hs]
    simp only [dma2d_wait_cpu_log]
    exact List.drop_left _ _
  rw [hws]
  constructor
  · intro hodd
    have hlen : ws1.length = dp.height.toNat := by simp [hl1, first_col_stores, hodd]
    have hr1 : r < ws1.length := by omega
    rw [List.get?_eq_getElem?, List.getElem?_append_left hr1, ← List.get?_eq_getElem?,
      List.take_append_of_le_length (by omega)]
    exact hf hodd r hr
  · intro hlast
    rw [← hl1, List.take_append, replay_append]
    have e : (ws1 ++ ws2).get? (ws1.length + r) = ws2.get? r := by
      rw [List.get?_eq_getElem?, List.getElem?_append_right (by omega), List.get?_eq_getElem?]
      congr 1
      omega
    rw [e]
    exact hl hlast r hr

/-- C3 (witness): row 0 of the two-column descriptor, where both columns are
drawn on the CPU. -/
theorem copy_mono4_boundary_columns_witness :
    (0 < two_column_dp.height.toNat ∧ two_column_dp.srca_x % 2 = 1 ∧
      0 < width_after_first two_column_dp ∧ width_after_first two_column_dp % 2 = 1) ∧
    (cpu_stores scenario_state
        (dma2d_rgb565_copy_mono4 gdc_env.plain scenario_state two_column_dp).2.2).get?
        (first_col_stores two_column_dp + 0) =
      some (pixel16_addr two_column_dp.dst_row two_column_dp.dst_stride
          (two_column_dp.dst_x + two_column_dp.width.toNat - 1) 0,
        gdc_env.plain.gdc_color16_gradient_a4 two_column_dp.srca_fg two_column_dp.srca_bg
          (mono4_pixel
            (replay (dma2d_wait gdc_env.plain scenario_state).mem
              ((cpu_stores scenario_state
                  (dma2d_rgb565_copy_mono4 gdc_env.plain scenario_state two_column_dp).2.2).take
                (first_col_stores two_column_dp + 0)))
            two_column_dp.srca_row two_column_dp.srca_stride
            (two_column_dp.srca_x + two_column_dp.width.toNat - 1) 0)) :=
  ⟨by decide,
   (copy_mono4_boundary_columns gdc_env.plain scenario_state two_column_dp 0 (by decide)).2
     (by decide)⟩

/-- C4. With the blend the linear ramp `bg + (fg - bg) * alpha / 15` per
channel: for every row `r < height` of a CPU-rendered boundary column of
`blend_mono4_over_16bit` (the first column when `srca_x` is odd, the last one
when the width left is positive and odd), the value stored at the destination
pixel is the 16-bit background sample read from the secondary source at that
column when the mask value read is 0, and the foreground colour in destination
format when the mask value read is 15. -/
theorem blend_mono4_rgb565_endpoints (E : gdc_env) (s : dma2d_state) (dp : dma2d_params_t)
    (r : Nat) (hr : r < dp.height.toNat) :
    (dp.srca_x % 2 = 1 → ∃ v : Nat,
      (cpu_stores s (dma2d_rgb565_blend_mono4_rgb565 E.spec16 s dp).2.2).get? r =
        some (pixel16_addr dp.dst_row dp.dst_stride dp.dst_x r, v) ∧
      (mono4_pixel
          (replay (dma2d_wait E.spec16 s).mem
            ((cpu_stores s (dma2d_rgb565_blend_mono4_rgb565 E.spec16 s dp).2.2).take r))
          dp.srca_row dp.srca_stride dp.srca_x r = 0 →
        v = load16
          (replay (dma2d_wait E.spec16 s).mem
            ((cpu_stores s (dma2d_rgb565_blend_mono4_rgb565 E.spec16 s dp).2.2).take r))
          (pixel16_addr dp.srcb_row dp.srcb_stride dp.srcb_x r)) ∧
      (mono4_pixel
          (replay (dma2d_wait E.spec16 s).mem
            ((cpu_stores s (dma2d_rgb565_blend_mono4_rgb565 E.spec16 s dp).2.2).take r))
          dp.srca_row dp.srca_stride dp.srca_x r = 15 →
        v = gdc_color_to_color16 dp.srca_fg)) ∧
    (0 < width_after_first dp ∧ width_after_first dp % 2 = 1 → ∃ v : Nat,
      (cpu_stores s (dma2d_rgb565_blend_mono4_rgb565 E.spec16 s dp).2.2).get?
          (first_col_stores dp + r) =
        some (pixel16_addr dp.dst_row dp.dst_stride (dp.dst_x + dp.width.toNat - 1) r, v) ∧
      (mono4_pixel
          (replay (dma2d_wait E.spec16 s).mem
            ((cpu_stores s (dma2d_rgb565_blend_mono4_rgb565 E.spec16 s dp).2.2).take
              (first_col_stores dp + r)))
          dp.srca_row dp.srca_stride (dp.srca_x + dp.width.toNat - 1) r = 0 →
        v = load16
          (replay (dma2d_wait E.spec16 s).mem
            ((cpu_stores s (dma2d_rgb565_blend_mono4_rgb565 E.spec16 s dp).2.2).take
              (first_col_stores dp + r)))
          (pixel16_addr dp.srcb_row dp.srcb_stride (dp.srcb_x + dp.width.toNat - 1) r)) ∧
      (mono4_pixel
          (replay (dma2d_wait E.spec16 s).mem
            ((cpu_stores s (dma2d_rgb565_blend_mono4_rgb565 E.spec16 s dp).2.2).take
              (first_col_stores dp + r)))
          dp.srca_row dp.srca_stride (dp.srca_x + dp.width.toNat - 1) r = 15 →
        v = gdc_color_to_color16 dp.srca_fg)) := by
  have h := blend_boundary_columns E.spec16 s dp r hr
  constructor
  · intro hodd
    refine ⟨_, h.1 hodd, ?_, ?_⟩
    · intro h0
      rw [h0]
      show gdc_color16_blend_a4_spec _ _ 0 = _
      rw [gdc_color16_blend_a4_spec_zero]
      exact Nat.mod_eq_of_lt (load16_lt _ _)
    · intro h15
      rw [h15]
      show gdc_color16_blend_a4_spec _ _ 15 = _
      rw [gdc_color16_blend_a4_spec_full]
      rfl
  · intro hlast
    refine ⟨_, h.2 hlast, ?_, ?_⟩
    · intro h0
      rw [h0]
      show gdc_color16_blend_a4_spec _ _ 0 = _
      rw [gdc_color16_blend_a4_spec_zero]
      exact Nat.mod_eq_of_lt (load16_lt _ _)
    · intro h15
      rw [h15]
      show gdc_color16_blend_a4_spec _ _ 15 = _
      rw [gdc_color16_blend_a4_spec_full]
      rfl

/-- C4 (witness): the blend example; the first column reads mask value 15 and
stores the foreground colour. -/
theorem blend_mono4_rgb565_endpoints_witness :
    (0 < blend_dp.height.toNat ∧ blend_dp.srca_x % 2 = 1 ∧
      mono4_pixel (dma2d_wait gdc_env.plain.spec16 blend_state).mem
        blend_dp.srca_row blend_dp.srca_stride blend_dp.srca_x 0 = 15) ∧
    ∃ v : Nat,
      (cpu_stores blend_state
          (dma2d_rgb565_blend_mono4_rgb565 gdc_env.plain.spec16 blend_state blend_dp).2.2).get? 0 =
        some (pixel16_addr blend_dp.dst_row blend_dp.dst_stride blend_dp.dst_x 0, v) ∧
      (mono4_pixel
          (replay (dma2d_wait gdc_env.plain.spec16 blend_state).mem
            ((cpu_stores blend_state
              (dma2d_rgb565_blend_mono4_rgb565 gdc_env.plain.spec16 blend_state
                blend_dp).2.2).take 0))
          blend_dp.srca_row blend_dp.srca_stride blend_dp.srca_x 0 = 0 →
        v = load16
          (replay (dma2d_wait gdc_env.plain.spec16 blend_state).mem
            ((cpu_stores blend_state
              (dma2d_rgb565_blend_mono4_rgb565 gdc_env.plain.spec16 blend_state
                blend_dp).2.2).take 0))
          (pixel16_addr blend_dp.srcb_row blend_dp.srcb_stride blend_dp.srcb_x 0)) ∧
      (mono4_pixel
          (replay (dma2d_wait gdc_env.plain.spec16 blend_state).mem
            ((cpu_stores blend_state
              (dma2d_rgb565_blend_mono4_rgb565 gdc_env.plain.spec16 blend_state
                blend_dp).2.2).take 0))
          blend_dp.srca_row blend_dp.srca_stride blend_dp.srca_x 0 = 15 →
        v = gdc_color_to_color16 blend_dp.srca_fg) :=
  ⟨by decide,
   (blend_mono4_rgb565_endpoints gdc_env.plain blend_state blend_dp 0 (by decide)).1
     (by decide)⟩

/-- C5. In the sequence `copy_mono4(fg,bg); copy_mono4(fg,bg); copy_mono4(fg,bg')`
with `bg' ≠ bg`, from any starting state and for any three geometries, the
second call makes no lookup-table programming call and the third makes exactly
one. -/
theorem copy_mono4_clut_cache_hit_then_miss (E : gdc_env) (s : dma2d_state)
    (dp1 dp2 dp3 : dma2d_params_t)
    (hfg2 : dp2.srca_fg = dp1.srca_fg) (hbg2 : dp2.srca_bg = dp1.srca_bg)
    (hfg3 : dp3.srca_fg = dp1.srca_fg) (hbg3 : dp3.srca_bg ≠ dp1.srca_bg) :
    clut_calls (hal_calls (dma2d_rgb565_copy_mono4 E s dp1).2.2
      (dma2d_rgb565_copy_mono4 E (dma2d_rgb565_copy_mono4 E s dp1).2.2 dp2).2.2) = 0 ∧
    clut_calls (hal_calls
      (dma2d_rgb565_copy_mono4 E (dma2d_rgb565_copy_mono4 E s dp1).2.2 dp2).2.2
      (dma2d_rgb565_copy_mono4 E
        (dma2d_rgb565_copy_mono4 E (dma2d_rgb565_copy_mono4 E s dp1).2.2 dp2).2.2 dp3).2.2) = 1 := by
  constructor
  · rw [clut_calls_copy_mono4, copy_mono4_cache]
    simp [hfg2, hbg2]
  · rw [clut_calls_copy_mono4, copy_mono4_cache]
    simp [hfg3, hbg2, hbg3]

/-- C5 (witness): white over black twice, then white over blue. -/
theorem copy_mono4_clut_cache_hit_then_miss_witness :
    clut_calls (hal_calls
      (dma2d_rgb565_copy_mono4 gdc_env.plain scenario_state (scenario_dp 0xFFFF 0)).2.2
      (dma2d_rgb565_copy_mono4 gdc_env.plain
        (dma2d_rgb565_copy_mono4 gdc_env.plain scenario_state (scenario_dp 0xFFFF 0)).2.2
        two_column_dp).2.2) = 0 ∧
    clut_calls (hal_calls
      (dma2d_rgb565_copy_mono4 gdc_env.plain
        (dma2d_rgb565_copy_mono4 gdc_env.plain scenario_state (scenario_dp 0xFFFF 0)).2.2
        two_column_dp).2.2
      (dma2d_rgb565_copy_mono4 gdc_env.plain
        (dma2d_rgb565_copy_mono4 gdc_env.plain
          (dma2d_rgb565_copy_mono4 gdc_env.plain scenario_state (scenario_dp 0xFFFF 0)).2.2
          two_column_dp).2.2 (scenario_dp 0xFFFF 0x001F)).2.2) = 1 :=
  copy_mono4_clut_cache_hit_then_miss gdc_env.plain scenario_state (scenario_dp 0xFFFF 0)
    two_column_dp (scenario_dp 0xFFFF 0x001F) rfl rfl rfl (by decide)

/-- C6. For every fill call with `width > 0` and `height > 0` whose rectangle
lies inside the destination (within a row of `dst_stride / 2` pixels, the
buffer within the 32-bit address space), once the register-to-memory transfer
that fill starts has finished, every destination pixel `(dst_x + k, r)` with
`k < width`, `r < height` holds the colour's packed representation in output
format, and every byte outside those pixels is as it was when fill returned. -/
theorem fill_writes_rectangle (E : gdc_env) (s : dma2d_state) (dp : dma2d_params_t)
    (hw : 0 < dp.width) (hh : 0 < dp.height)
    (hx : dp.dst_x + dp.width.toNat ≤ dp.dst_stride / 2)
    (hspace : dp.dst_row + dp.height.toNat * dp.dst_stride ≤ 4294967296) :
    (∀ k r, k < dp.width.toNat → r < dp.height.toNat →
      load16 (dma2d_wait E (dma2d_rgb565_fill E s dp).2.2).mem
          (pixel16_addr dp.dst_row dp.dst_stride (dp.dst_x + k) r) =
        E.engine_out565 (E.gdc_color_to_color32 dp.srca_fg % 4294967296) % 65536) ∧
    (∀ a, (∀ k r, k < dp.width.toNat → r < dp.height.toNat →
        a ≠ pixel16_addr dp.dst_row dp.dst_stride (dp.dst_x + k) r ∧
        a ≠ pixel16_addr dp.dst_row dp.dst_stride (dp.dst_x + k) r + 1) →
      (dma2d_wait E (dma2d_rgb565_fill E s dp).2.2).mem a =
        (dma2d_rgb565_fill E s dp).2.2.mem a) := by
  have hh1 : 1 ≤ dp.height.toNat := by omega
  have hstride : dp.dst_stride ≤ dp.height.toNat * dp.dst_stride :=
    Nat.le_mul_of_pos_left _ hh1
  have hh2 : dp.height.toNat * 2 ≤ dp.height.toNat * dp.dst_stride :=
    Nat.mul_le_mul_left _ (by omega)
  have ew : toU32 dp.width = dp.width.toNat := toU32_of_lt _ (by omega) (by omega)
  have eh : toU32 dp.height = dp.height.toNat := toU32_of_lt _ (by omega) (by omega)
  have eo : toU32 ((dp.dst_stride / 2 : Nat) - dp.width) = dp.dst_stride / 2 - dp.width.toNat := by
    rw [toU32_of_lt _ (by omega) (by omega)]
    omega
  have ed : (dp.dst_row + dp.dst_x * 2) % 4294967296 = dp.dst_row + dp.dst_x * 2 :=
    Nat.mod_eq_of_lt (by omega)
  have hp := fill_pending E s dp
  rw [ew, eh, eo, ed] at hp
  rw [wait_mem_of_pending E _ _ hp]
  generalize hcl : (dma2d_rgb565_fill E s dp).2.2.FGCLUT = clut
  generalize hm : (dma2d_rgb565_fill E s dp).2.2.mem = m
  generalize ht : (⟨{ (dma2d_wait E s).dma2d_handle with
      Init := ⟨DMA2D_R2M, DMA2D_OUTPUT_RGB565, dp.dst_stride / 2 - dp.width.toNat⟩ },
    E.gdc_color_to_color32 dp.srca_fg % 4294967296, 0,
    dp.dst_row + dp.dst_x * 2, dp.width.toNat, dp.height.toNat⟩ : dma2d_transfer) = t
  have htw : t.width = dp.width.toNat := by rw [← ht]
  have hth : t.height = dp.height.toNat := by rw [← ht]
  have hpix : ∀ (m' : Mem) (r k : Nat), dma2d_engine_pixel E clut t m' r k =
      E.engine_out565 (E.gdc_color_to_color32 dp.srca_fg % 4294967296) := by
    intro m' r k
    rw [← ht]
    simp only [dma2d_engine_pixel]
  have hdst : ∀ r k, dma2d_engine_dst t r k =
      pixel16_addr dp.dst_row dp.dst_stride (dp.dst_x + k) r := by
    intro r k
    rw [← ht]
    simp only [dma2d_engine_dst, pixel16_addr]
    have : dp.width.toNat + (dp.dst_stride / 2 - dp.width.toNat) = dp.dst_stride / 2 := by omega
    rw [this]
    ring
  obtain ⟨hval, hframe⟩ := engine_run_spec E clut t m
    (fun c _ m' _ => by rw [hpix, hpix])
  constructor
  · intro k r hk hr
    have := hval r k (by omega) (by omega)
    rw [hdst, hpix] at this
    exact load16_of_bytes _ _ _ this.1 this.2
  · intro a ha
    apply hframe
    intro r k hr hk
    rw [hdst]
    exact ha k r (by omega) (by omega)

/-- C6 (witness): a 2x2 fill at column 1 of a buffer with 8 pixels per row;
the pixel in its lower right corner. -/
theorem fill_writes_rectangle_witness :
    load16 (dma2d_wait gdc_env.plain
        (dma2d_rgb565_fill gdc_env.plain scenario_state separate_dp).2.2).mem
        (pixel16_addr separate_dp.dst_row separate_dp.dst_stride (separate_dp.dst_x + 1) 1) =
      gdc_env.plain.engine_out565
        (gdc_env.plain.gdc_color_to_color32 separate_dp.srca_fg % 4294967296) % 65536 :=
  (fill_writes_rectangle gdc_env.plain scenario_state separate_dp (by decide) (by decide)
    (by decide) (by decide)).1 1 1 (by decide) (by decide)

/-- C7 (failing input). With `srca_x = 1` and `width = 0` (a descriptor that
satisfies `width ≥ 0`, `height ≥ 0`) the width left after the first column is
`-1`, and the transfer is started with that width converted to `uint32_t`:
`4294967295`, which is odd and larger than the original width. -/
theorem copy_mono4_empty_width_starts_odd_transfer :
    (dma2d_rgb565_copy_mono4 gdc_env.plain scenario_state
        { scenario_dp 0xFFFF 0 with width := 0 }).2.1.width = -1 ∧
    start_calls (dma2d_rgb565_copy_mono4 gdc_env.plain scenario_state
        { scenario_dp 0xFFFF 0 with width := 0 }).2.2.hal_log =
      [hal_call.HAL_DMA2D_Start 0x2001 0x1002 4294967295 1] ∧
    4294967295 % 2 = 1 := by
  decide

/-- C8. For every descriptor and every engine state, the polling loop of
`blend_mono4_over_mono4` ends (after `busy + 1` polls) and the call returns
`true`.  It leaves the descriptor, the handle, both lookup tables and the
lookup-table cache as they were and makes no HAL call and no CPU store; all it
does is wait: the engine is idle afterwards, and memory is what the transfer
that was pending (if any) makes of it, unchanged when none was. -/
theorem blend_mono4_mono4_only_waits (E : gdc_env) (s : dma2d_state) (params : dma2d_params_t) :
    dma2d_wait_fuel E (s.busy + 1) s = some (dma2d_rgb565_blend_mono4_mono4 E s params).2.2 ∧
    (dma2d_rgb565_blend_mono4_mono4 E s params).1 = true ∧
    (dma2d_rgb565_blend_mono4_mono4 E s params).2.1 = params ∧
    (dma2d_rgb565_blend_mono4_mono4 E s params).2.2 =
      { s with
        busy := 0
        pending := none
        mem := match s.pending with
          | some t => dma2d_engine_run E s.FGCLUT t s.mem
          | none => s.mem } := by
  have h : (dma2d_rgb565_blend_mono4_mono4 E s params).2.2 = dma2d_wait E s := rfl
  rw [h, dma2d_wait_eq]
  exact ⟨dma2d_wait_fuel_busy E s.busy s rfl, rfl, rfl, rfl⟩

/-- C9 (counterexample). Source and destination overlap: after one
`copy_16bit` (and the wait for its transfer) the first destination pixel holds
2, after a second run with the same descriptor it holds 3. -/
theorem copy_rgb565_overlap_counterexample :
    load16 (dma2d_wait gdc_env.plain (dma2d_rgb565_copy_rgb565 gdc_env.plain
        (dma2d_rgb565_copy_rgb565 gdc_env.plain overlap_state overlap_dp).2.2
        overlap_dp).2.2).mem 0x1000 ≠
      load16 (dma2d_wait gdc_env.plain
        (dma2d_rgb565_copy_rgb565 gdc_env.plain overlap_state overlap_dp).2.2).mem 0x1000 := by
  decide

/-- C9 (amended). For every `copy_16bit` descriptor with `width ≥ 0` and
`height ≥ 0` whose source and destination rectangles lie inside their buffers
(within a row, buffers within the 32-bit address space) and such that no source
pixel of the rectangle shares a byte with a destination pixel of the rectangle:
the call leaves the descriptor as it was, a second call with the same
descriptor starts the same transfer as the first, and once that has finished
memory is identical to memory after the first transfer alone. -/
theorem copy_rgb565_twice (E : gdc_env) (s : dma2d_state) (dp : dma2d_params_t)
    (hw : 0 ≤ dp.width) (hh : 0 ≤ dp.height)
    (hxd : dp.dst_x + dp.width.toNat ≤ dp.dst_stride / 2)
    (hxs : dp.srca_x + dp.width.toNat ≤ dp.srca_stride / 2)
    (hspd : dp.dst_row + dp.height.toNat * dp.dst_stride ≤ 4294967296)
    (hsps : dp.srca_row + dp.height.toNat * dp.srca_stride ≤ 4294967296)
    (hdisj : ∀ r k r' k', r < dp.height.toNat → k < dp.width.toNat →
      r' < dp.height.toNat → k' < dp.width.toNat →
      pixel16_addr dp.srca_row dp.srca_stride (dp.srca_x + k) r ≠
        pixel16_addr dp.dst_row dp.dst_stride (dp.dst_x + k') r' ∧
      pixel16_addr dp.srca_row dp.srca_stride (dp.srca_x + k) r ≠
        pixel16_addr dp.dst_row dp.dst_stride (dp.dst_x + k') r' + 1 ∧
      pixel16_addr dp.srca_row dp.srca_stride (dp.srca_x + k) r + 1 ≠
        pixel16_addr dp.dst_row dp.dst_stride (dp.dst_x + k') r') :
    (dma2d_rgb565_copy_rgb565 E s dp).2.1 = dp ∧
    (dma2d_rgb565_copy_rgb565 E (dma2d_rgb565_copy_rgb565 E s dp).2.2 dp).2.2.pending =
      (dma2d_rgb565_copy_rgb565 E s dp).2.2.pending ∧
    (dma2d_wait E
        (dma2d_rgb565_copy_rgb565 E (dma2d_rgb565_copy_rgb565 E s dp).2.2 dp).2.2).mem =
      (dma2d_wait E (dma2d_rgb565_copy_rgb565 E s dp).2.2).mem := by
  refine ⟨rfl, copy_rgb565_pending_again E s dp, ?_⟩
  have hp1 := copy_rgb565_pending E s dp
  have hp2 := copy_rgb565_pending_again E s dp
  rw [hp1] at hp2
  have hm2 : (dma2d_rgb565_copy_rgb565 E (dma2d_rgb565_copy_rgb565 E s dp).2.2 dp).2.2.mem =
      (dma2d_wait E (dma2d_rgb565_copy_rgb565 E s dp).2.2).mem := rfl
  rw [wait_mem_of_pending E _ _ hp2, hm2, wait_mem_of_pending E _ _ hp1]
  generalize (dma2d_rgb565_copy_rgb565 E (dma2d_rgb565_copy_rgb565 E s dp).2.2 dp).2.2.FGCLUT = c2
  generalize (dma2d_rgb565_copy_rgb565 E s dp).2.2.FGCLUT = c1
  generalize (dma2d_rgb565_copy_rgb565 E s dp).2.2.mem = m
  by_cases hz : dp.width = 0 ∨ dp.height = 0
  · have hz' : toU32 dp.width = 0 ∨ toU32 dp.height = 0 := by
      rcases hz with h | h
      · left; rw [h]; rfl
      · right; rw [h]; rfl
    rw [engine_run_no_cells E c1 _ m hz', engine_run_no_cells E c2 _ m hz']
  · have hw' : 0 < dp.width := by omega
    have hh' : 0 < dp.height := by omega
    have hh1 : 1 ≤ dp.height.toNat := by omega
    have hstd : dp.dst_stride ≤ dp.height.toNat * dp.dst_stride :=
      Nat.le_mul_of_pos_left _ hh1
    have hsts : dp.srca_stride ≤ dp.height.toNat * dp.srca_stride :=
      Nat.le_mul_of_pos_left _ hh1
    have hh2 : dp.height.toNat * 2 ≤ dp.height.toNat * dp.dst_stride :=
      Nat.mul_le_mul_left _ (by omega)
    have ew : toU32 dp.width = dp.width.toNat := toU32_of_lt _ (by omega) (by omega)
    have eh : toU32 dp.height = dp.height.toNat := toU32_of_lt _ (by omega) (by omega)
    have eo : toU32 ((dp.dst_stride / 2 : Nat) - dp.width) =
        dp.dst_stride / 2 - dp.width.toNat := by
      rw [toU32_of_lt _ (by omega) (by omega)]
      omega
    have ei : toU32 ((dp.srca_stride / 2 : Nat) - dp.width) =
        dp.srca_stride / 2 - dp.width.toNat := by
      rw [toU32_of_lt _ (by omega) (by omega)]
      omega
    have ed : (dp.dst_row + dp.dst_x * 2) % 4294967296 = dp.dst_row + dp.dst_x * 2 :=
      Nat.mod_eq_of_lt (by omega)
    have es : (dp.srca_row + dp.srca_x * 2) % 4294967296 = dp.srca_row + dp.srca_x * 2 :=
      Nat.mod_eq_of_lt (by omega)
    rw [ew, eh, eo, ei, ed, es]
    have e1 : dp.width.toNat + (dp.dst_stride / 2 - dp.width.toNat) = dp.dst_stride / 2 := by
      omega
    have e2 : dp.width.toNat + (dp.srca_stride / 2 - dp.width.toNat) = dp.srca_stride / 2 := by
      omega
    apply engine_copy16_idempotent E c1 c2 _ m
      (fun r k => pixel16_addr dp.srca_row dp.srca_stride (dp.srca_x + k) r)
    · intro m' cl r k
      simp only [dma2d_engine_pixel, pixel16_addr, e2]
      congr 1
      ring
    · intro r k r' k' hr hk hr' hk'
      have := hdisj r k r' k' hr hk hr' hk'
      have hd : dp.dst_row + dp.dst_x * 2 + 2 * (r' * (dp.dst_stride / 2) + k') =
          pixel16_addr dp.dst_row dp.dst_stride (dp.dst_x + k') r' := by
        simp only [pixel16_addr]
        ring
      simp only [dma2d_engine_dst, e1, hd]
      exact this

/-- C9 (witness): a 2x2 copy between two separate buffers. -/
theorem copy_rgb565_twice_witness :
    (dma2d_wait gdc_env.plain (dma2d_rgb565_copy_rgb565 gdc_env.plain
        (dma2d_rgb565_copy_rgb565 gdc_env.plain scenario_state separate_dp).2.2
        separate_dp).2.2).mem =
      (dma2d_wait gdc_env.plain
        (dma2d_rgb565_copy_rgb565 gdc_env.plain scenario_state separate_dp).2.2).mem :=
  (copy_rgb565_twice gdc_env.plain scenario_state separate_dp (by decide) (by decide)
    (by decide) (by decide) (by decide) (by decide)
    (by
      intro r k r' k' hr hk hr' hk'
      have h1 : r < 2 := hr
      have h2 : k < 2 := hk
      have h3 : r' < 2 := hr'
      have h4 : k' < 2 := hk'
      simp only [pixel16_addr, separate_dp]
      omega)).2.2

/-- The four-column blend example evaluated: CPU stores at columns 0 and 3
(background columns 1 and 4 of the image), and one transfer of width 2 from
mask byte 1 (mask index 2), background column 2, to destination column 1. -/
theorem blend_example4_columns :
    cpu_stores blend_state
        (dma2d_rgb565_blend_mono4_rgb565 gdc_env.plain.spec16 blend_state blend_dp4).2.2 =
      [(pixel16_addr 0x1000 16 0 0, 0x07E0), (pixel16_addr 0x1000 16 3 0, 0)] ∧
    start_calls (hal_calls blend_state
        (dma2d_rgb565_blend_mono4_rgb565 gdc_env.plain.spec16 blend_state blend_dp4).2.2) =
      [hal_call.HAL_DMA2D_BlendingStart (0x2000 + 2 / 2) (pixel16_addr 0x3000 16 2 0)
        (pixel16_addr 0x1000 16 1 0) 2 1] := by
  decide

/-- C13 (failing input). At process start the cache entry of each layer is the
zero pair although the hardware tables were never programmed, so
`dma2d_config_clut(layer, 0, 0)` finds the pair cached and skips programming:
the state is returned unchanged, whatever the tables hold, and
`dma2d_rgb565_copy_mono4` with `fg = bg = 0` as first call makes no programming
call and leaves the tables as they were.  Whatever the blend function is, there
are table contents at start with which the table of layer 1 does not hold the
blend after the call.  On tables reading `0xFFFFFFFF` the
table of layer 1 then does not hold the blend of the pair (entry 0 should be
0), neither after the direct call nor after the copy of the scenario
descriptor, though the cache entry is `(0, 0)`.  With any other cached state
the pair is programmed: after a first call with `(0xFFFF, 0)` the same call
with `(0, 0)` makes the table hold the blend. -/
theorem config_clut_zero_pair_skipped_at_start :
    (∀ (E : gdc_env) (m : Mem) (fgclut bgclut : Nat → Nat) (layer : Nat),
      dma2d_config_clut E (dma2d_state_start m fgclut bgclut) layer 0 0 =
        dma2d_state_start m fgclut bgclut) ∧
    (∀ (E : gdc_env) (m : Mem) (fgclut bgclut : Nat → Nat) (dp : dma2d_params_t),
      clut_calls (hal_calls (dma2d_state_start m fgclut bgclut)
        (dma2d_rgb565_copy_mono4 E (dma2d_state_start m fgclut bgclut)
          { dp with srca_fg := 0, srca_bg := 0 }).2.2) = 0 ∧
      (dma2d_rgb565_copy_mono4 E (dma2d_state_start m fgclut bgclut)
          { dp with srca_fg := 0, srca_bg := 0 }).2.2.FGCLUT = fgclut) ∧
    (∀ (E : gdc_env) (m : Mem) (bgclut : Nat → Nat),
      ¬ clut_holds E
        (dma2d_config_clut E
          (dma2d_state_start m (fun i => E.gdc_color32_blend_a4 0 0 i % 4294967296 + 1) bgclut)
          1 0 0) 1 0 0) ∧
    (dma2d_config_clut gdc_env.plain unprogrammed_state 1 0 0).cache 1 = ⟨0, 0⟩ ∧
    hal_calls unprogrammed_state (dma2d_config_clut gdc_env.plain unprogrammed_state 1 0 0) = [] ∧
    clut_of (dma2d_config_clut gdc_env.plain unprogrammed_state 1 0 0) 1 0 = 0xFFFFFFFF ∧
    gdc_env.plain.gdc_color32_blend_a4 0 0 0 % 4294967296 = 0 ∧
    ¬ clut_holds gdc_env.plain (dma2d_config_clut gdc_env.plain unprogrammed_state 1 0 0) 1 0 0 ∧
    (dma2d_rgb565_copy_mono4 gdc_env.plain unprogrammed_state (scenario_dp 0 0)).2.2.cache 1 =
      ⟨0, 0⟩ ∧
    ¬ clut_holds gdc_env.plain
      (dma2d_rgb565_copy_mono4 gdc_env.plain unprogrammed_state (scenario_dp 0 0)).2.2 1 0 0 ∧
    clut_holds gdc_env.plain
      (dma2d_config_clut gdc_env.plain
        (dma2d_config_clut gdc_env.plain unprogrammed_state 1 0xFFFF 0) 1 0 0) 1 0 0 := by
  refine ⟨?_, ?_, ?_, by decide, by decide, by decide, by decide, ?_, by decide, ?_, ?_⟩
  · intro E m fgclut bgclut layer
    exact config_clut_cached E _ layer 0 0 rfl rfl
  · intro E m fgclut bgclut dp
    have h := copy_mono4_clut_skip E (dma2d_state_start m fgclut bgclut)
      { dp with srca_fg := 0, srca_bg := 0 } rfl rfl
    exact ⟨h.1, h.2.1⟩
  · intro E m bgclut h
    rw [config_clut_cached E _ 1 0 0 rfl rfl] at h
    have h0 := h 0 (by decide)
    simp only [clut_of, dma2d_state_start] at h0
    simp at h0
  · intro h
    exact absurd (h 0 (by decide)) (by decide)
  · intro h
    exact absurd (h 0 (by decide)) (by decide)
  · exact (config_clut_spec gdc_env.plain
      (dma2d_config_clut gdc_env.plain unprogrammed_state 1 0xFFFF 0) 1 0 0 (by decide)).2.1
      (by decide) |>.1

namespace Vg2864

/-- C10 (counterexample). Setting level 0 stores and returns 255, so a
following get returns 255; and right after `xdisplay_init` the level is 255,
not 0. -/
theorem set_backlight_counterexample :
    (xdisplay_set_backlight g_display_reset 0).1 ≠ 0 ∧
    xdisplay_get_backlight (xdisplay_set_backlight g_display_reset 0).2 ≠ 0 ∧
    xdisplay_get_backlight (xdisplay_init g_display_reset) ≠ 0 := by
  decide

/-- C10 (amended). For every context and every `level`,
`xdisplay_set_backlight(level)` sets the backlight level to 255 and returns
255, the level that is set: a following `xdisplay_get_backlight()` returns the
value the set call returned.  Nothing else in the context changes. -/
theorem set_backlight_fixed_level (g_display : display_t) (level : Int) :
    (xdisplay_set_backlight g_display level).1 = 255 ∧
    xdisplay_get_backlight (xdisplay_set_backlight g_display level).2 =
      (xdisplay_set_backlight g_display level).1 ∧
    (xdisplay_set_backlight g_display level).2 = { g_display with backlight_level := 255 } :=
  ⟨rfl, rfl, rfl⟩

theorem send_fb_bands_orientation (l : List Nat) :
    ∀ d : display_t,
      (l.foldl (fun d y => { d with spi_log := d.spi_log ++ [display_band d y] }) d).orientation_angle
        = d.orientation_angle := by
  induction l with
  | nil => intro d; rfl
  | cons y rest ih =>
    intro d
    rw [List.foldl_cons, ih]

theorem display_send_fb_orientation (d : display_t) :
    (display_send_fb d).orientation_angle = d.orientation_angle := by
  unfold display_send_fb
  rw [send_fb_bands_orientation]
  rfl

theorem set_orientation_result (g : display_t) (angle : Int) :
    (xdisplay_set_orientation g angle).2.orientation_angle =
      (if angle = 0 ∨ angle = 180 then angle else g.orientation_angle) ∧
    (xdisplay_set_orientation g angle).1 =
      (xdisplay_set_orientation g angle).2.orientation_angle := by
  refine ⟨?_, rfl⟩
  unfold xdisplay_set_orientation
  simp only
  by_cases hne : angle ≠ g.orientation_angle
  · rw [if_pos hne]
    by_cases hv : angle = 0 ∨ angle = 180
    · rw [if_pos hv, if_pos hv, display_send_fb_orientation]
    · rw [if_neg hv, if_neg hv]
  · rw [if_neg hne]
    have : angle = g.orientation_angle := not_not.mp hne
    split
    · exact this.symm
    · rfl

theorem xdisplay_run_call_inv (p : Option Int × display_t) (c : xdisplay_call)
    (h : (p.2.orientation_angle = 0 ∨ p.2.orientation_angle = 180) ∧
      ∀ v, p.1 = some v → p.2.orientation_angle = v) :
    ((xdisplay_run_call p c).2.orientation_angle = 0 ∨
      (xdisplay_run_call p c).2.orientation_angle = 180) ∧
    ∀ v, (xdisplay_run_call p c).1 = some v → (xdisplay_run_call p c).2.orientation_angle = v := by
  cases c with
  | set_orientation angle =>
    have hs := set_orientation_result p.2 angle
    simp only [xdisplay_run_call]
    constructor
    · rw [hs.1]
      split
      · assumption
      · exact h.1
    · intro v hv
      rw [← hs.2]
      exact Option.some.inj hv
  | set_backlight level => exact h
  | swap_fb =>
    simp only [xdisplay_run_call, xdisplay_swap_fb, display_send_fb_orientation]
    exact h

theorem xdisplay_run_inv (calls : List xdisplay_call) :
    ∀ p : Option Int × display_t,
      ((p.2.orientation_angle = 0 ∨ p.2.orientation_angle = 180) ∧
        ∀ v, p.1 = some v → p.2.orientation_angle = v) →
      (((calls.foldl xdisplay_run_call p).2.orientation_angle = 0 ∨
        (calls.foldl xdisplay_run_call p).2.orientation_angle = 180) ∧
        ∀ v, (calls.foldl xdisplay_run_call p).1 = some v →
          (calls.foldl xdisplay_run_call p).2.orientation_angle = v) := by
  induction calls with
  | nil => intro p h; exact h
  | cons c rest ih =>
    intro p h
    rw [List.foldl_cons]
    exact ih _ (xdisplay_run_call_inv p c h)

/-- C11. `xdisplay_set_orientation` returns the orientation that is set after
the call: for `angle` 0 or 180 it stores `angle` and returns it, for every
other angle the stored orientation is unchanged and is what is returned.
Consequently, from a context with the default orientation 0 and after any
sequence of calls (orientation sets with any angles, backlight sets, buffer
swaps), `xdisplay_get_orientation` returns 0 or 180, and it equals the value
returned by the last `xdisplay_set_orientation` call of the sequence. -/
theorem set_orientation_returns_stored (g_display : display_t) (angle : Int)
    (calls : List xdisplay_call) :
    (angle = 0 ∨ angle = 180 →
      (xdisplay_set_orientation g_display angle).2.orientation_angle = angle ∧
      (xdisplay_set_orientation g_display angle).1 = angle) ∧
    (¬ (angle = 0 ∨ angle = 180) →
      (xdisplay_set_orientation g_display angle).2.orientation_angle =
        g_display.orientation_angle ∧
      (xdisplay_set_orientation g_display angle).1 = g_display.orientation_angle) ∧
    xdisplay_get_orientation (xdisplay_set_orientation g_display angle).2 =
      (xdisplay_set_orientation g_display angle).1 ∧
    (g_display.orientation_angle = 0 →
      (xdisplay_get_orientation (xdisplay_run g_display calls).2 = 0 ∨
        xdisplay_get_orientation (xdisplay_run g_display calls).2 = 180) ∧
      ∀ v, (xdisplay_run g_display calls).1 = some v →
        xdisplay_get_orientation (xdisplay_run g_display calls).2 = v) := by
  have hs := set_orientation_result g_display angle
  refine ⟨?_, ?_, rfl, ?_⟩
  · intro hv
    rw [hs.2, hs.1, if_pos hv]
    exact ⟨rfl, rfl⟩
  · intro hv
    rw [hs.2, hs.1, if_neg hv]
    exact ⟨rfl, rfl⟩
  · intro h0
    exact xdisplay_run_inv calls (none, g_display)
      ⟨Or.inl h0, fun v hv => by cases hv⟩

/-- C11 (witness): from the context at process start, set 180, set 90 (not
accepted), a backlight set and a buffer swap: the orientation read back is 180,
the value the last orientation set returned. -/
theorem set_orientation_returns_stored_witness :
    (g_display_reset.orientation_angle = 0 ∧
      (xdisplay_run g_display_reset
        [xdisplay_call.set_orientation 180, xdisplay_call.set_orientation 90,
         xdisplay_call.set_backlight 3, xdisplay_call.swap_fb]).1 = some 180) ∧
    xdisplay_get_orientation (xdisplay_run g_display_reset
        [xdisplay_call.set_orientation 180, xdisplay_call.set_orientation 90,
         xdisplay_call.set_backlight 3, xdisplay_call.swap_fb]).2 = 180 :=
  ⟨by decide,
   ((set_orientation_returns_stored g_display_reset 180
      [xdisplay_call.set_orientation 180, xdisplay_call.set_orientation 90,
       xdisplay_call.set_backlight 3, xdisplay_call.swap_fb]).2.2.2 (by decide)).2 180
      (by decide)⟩

end Vg2864

end Dma2dGdc
